import Mathlib

/-!
# Verification of the stockexchange allocation-and-risk engine

Shallow embedding of `src/logic_engine.py` (class `TradingLogic`) over exact
rationals.  External collaborators (Alpaca market data, the sqlite decision
ledger) are modelled as an explicit environment of pure functions; each model
definition mirrors one Python function or code block, noted in its doc string.
Python `None`-able floats are `Option ℚ` (plus an explicit NaN constructor
where pandas can produce NaN), Python exceptions are `Except PyErr`, and
Python float arithmetic is idealised as exact rational arithmetic.
-/

namespace StockExchange

/-- Error raised by a Python runtime failure (e.g. comparing `None` with a
number, or multiplying an `int` with `None`). -/
inductive PyErr
  | typeError
  deriving Repr, DecidableEq

/-- Python `int(x)` applied to a float: truncation toward zero. -/
def pyInt (q : ℚ) : ℤ := if 0 ≤ q then ⌊q⌋ else ⌈q⌉

/-- Round-half-to-even on integers: nearest integer to `x`, ties to the even
integer (the rounding mode of Python's builtin `round`). -/
def roundHalfEven (x : ℚ) : ℤ :=
  let f := ⌊x⌋
  if x - f < 1/2 then f
  else if x - f > 1/2 then f + 1
  else if f % 2 = 0 then f else f + 1

/-- Python `round(x, 4)`: round to the nearest multiple of `1/10000`,
ties to even (idealised over exact rationals). -/
def pyRound4 (x : ℚ) : ℚ := (roundHalfEven (x * 10000) : ℚ) / 10000

/-- Truthiness of a Python optional float: `None` and `0.0` are falsy. -/
def truthy : Option ℚ → Bool
  | none => false
  | some x => x != 0

/-- A Python value that is either `None`, a float NaN, or a finite float
(`calculate_rsi` can return any of the three). -/
inductive PyFloatOpt
  | none
  | nan
  | val (q : ℚ)
  deriving Repr, DecidableEq

/-- Python `x > c` where `x` may be `None` or NaN: `None` raises `TypeError`,
NaN compares false. -/
def pyGT (x : PyFloatOpt) (c : ℚ) : Except PyErr Bool :=
  match x with
  | .none => .error .typeError
  | .nan => .ok false
  | .val q => .ok (decide (q > c))

/-- Python `x >= c` for a possibly-`None`/NaN float. -/
def pyGE (x : PyFloatOpt) (c : ℚ) : Except PyErr Bool :=
  match x with
  | .none => .error .typeError
  | .nan => .ok false
  | .val q => .ok (decide (q ≥ c))

/-- Python `p <= y` where `y : Option ℚ` may be `None` (raises `TypeError`). -/
def pyLE (p : ℚ) (y : Option ℚ) : Except PyErr Bool :=
  match y with
  | none => .error .typeError
  | some q => .ok (decide (p ≤ q))

/-- Python `n * y` where `y : Option ℚ` may be `None` (raises `TypeError`). -/
def pyMulOpt (n : ℚ) (y : Option ℚ) : Except PyErr ℚ :=
  match y with
  | none => .error .typeError
  | some q => .ok (n * q)

/-- Maximum of a list of rationals (used on provably nonempty lists; the
default only pads the fold's initial value with the head). -/
def listMax (l : List ℚ) : ℚ := l.foldl max (l.headD 0)

/-! ## Data model -/

/-- One daily OHLC bar (the `high`/`low`/`close` columns kept by
`fetch_history`). -/
structure Bar where
  high : ℚ
  low : ℚ
  close : ℚ
  deriving Repr, DecidableEq

/-- An Alpaca asset as consumed by `validate_ticker`. -/
structure Asset where
  tradable : Bool
  status : String
  deriving Repr, DecidableEq

/-- One Alpaca position as consumed by `generate_plan` (fields read from
`api.list_positions()`). -/
structure Position where
  symbol : String
  qty : ℚ
  avg_entry_price : ℚ
  market_value : ℚ
  current_price : ℚ
  deriving Repr, DecidableEq

/-- One candidate signal from `sentiment_data` (the keys read by
`generate_plan`; `reasoning` is carried only into log text and is dropped). -/
structure Signal where
  ticker : String
  action : String
  sentiment_score : Option ℚ
  duration_score : Option ℚ
  deriving Repr, DecidableEq

/-- Per-ticker entry of `current_holdings_data`: `qty`, `avg_entry` and (on
the live-API path only) `current_price`.  The Python dict chain
`data.get('avg_entry', data.get('buy_price', 0))` always finds `avg_entry`
here because both construction sites of `current_holdings_data` set it. -/
structure HoldingData where
  qty : ℚ
  avg_entry : ℚ
  current_price : Option ℚ
  deriving Repr, DecidableEq

/-- The collaborator environment: Alpaca market data and the decision
ledger, as pure functions.  `last_buy_hours` returns the hours elapsed since
the most recent BUY (the model of `get_last_buy_time` combined with
`datetime.now()`); `history t` is the already-error-handled result of the
bar download in `fetch_history` (`none` on exception or empty frame). -/
structure Env where
  api_present : Bool
  get_asset : String → Except Unit Asset
  latest_trade : String → Except Unit ℚ
  manual_price : String → Option ℚ
  history : String → Option (List Bar)
  on_cooldown : String → Bool
  last_buy_hours : String → Option ℚ
  latest_scores : String → ℚ × ℚ
  list_positions : Except Unit (List Position)

/-- Engine configuration: the `TradingLogic.__init__` fields. -/
structure Cfg where
  budget : ℚ
  risk_per_trade_percent : ℚ
  stop_loss_percent : ℚ
  max_concentration_percent : ℚ
  atr_multiplier : ℚ := 2
  atr_period : ℕ := 14
  trailing_activation_pct : ℚ := 1/10
  trailing_drop_pct : ℚ := 3/100
  deriving Repr, DecidableEq

/-! ## Collaborator access (`validate_ticker`, `fetch_price`, `fetch_history`) -/

/-- Association-list lookup for the `_ticker_cache` dict. -/
def cacheLookup (t : String) : List (String × Bool) → Option Bool
  | [] => none
  | (t', b) :: rest => if t' = t then some b else cacheLookup t rest

/-- `TradingLogic.validate_ticker`: memoized tradability check.  Without an
API client it assumes valid; a raising `get_asset` call yields `False`
("Asset not found on Alpaca").  Returns the result and the updated cache. -/
def validateTicker (api : Option (String → Except Unit Asset))
    (cache : List (String × Bool)) (t : String) : Bool × List (String × Bool) :=
  match cacheLookup t cache with
  | some b => (b, cache)
  | none =>
    match api with
    | none => (true, (t, true) :: cache)
    | some get_asset =>
      match get_asset t with
      | .ok a =>
        let is_valid := a.tradable && a.status == "active"
        (is_valid, (t, is_valid) :: cache)
      | .error _ => (false, (t, false) :: cache)

/-- `TradingLogic.fetch_price`: Alpaca latest trade, falling back to manual
input (`none` models the user typing `skip`). -/
def fetchPrice (env : Env) (t : String) : Option ℚ :=
  if env.api_present then
    match env.latest_trade t with
    | .ok p => some p
    | .error _ => env.manual_price t
  else env.manual_price t

/-- `TradingLogic.fetch_history`: `None` without an API client, else the
downloaded bars. -/
def fetchHistory (env : Env) (t : String) : Option (List Bar) :=
  if env.api_present then env.history t else none

/-! ## Indicator Calculator -/

/-- The true-range series of an OHLC frame: one value per bar from the second
bar on (`max(high-low, |high-prevClose|, |low-prevClose|)`; the first bar's
row, whose prev-close is NaN, never enters a full rolling window). -/
def trueRanges (bars : List Bar) : List ℚ :=
  List.zipWith
    (fun b prev => max (b.high - b.low) (max |b.high - prev.close| |b.low - prev.close|))
    (bars.drop 1) bars

/-- `TradingLogic.calculate_atr`: rolling mean of true range over `period`
bars, at the most recent bar; `None` below `period + 1` bars. -/
def calcATR (bars : List Bar) (period : ℕ) : Option ℚ :=
  if bars.length < period + 1 then none
  else
    let trs := trueRanges bars
    some (((trs.drop (trs.length - period)).sum) / period)

/-- Day-over-day deltas of a close series (`series.diff()` minus its leading
NaN). -/
def deltas (series : List ℚ) : List ℚ :=
  List.zipWith (fun next prev => next - prev) (series.drop 1) series

/-- `TradingLogic.calculate_rsi`: `None` below `period + 1` points; with a
zero average loss, pandas produces `rs = inf` (RSI 100) or, when the average
gain is also zero, NaN. -/
def calcRSI (series : List ℚ) (period : ℕ) : PyFloatOpt :=
  if series.length < period + 1 then .none
  else
    let ds := deltas series
    let lastds := ds.drop (ds.length - period)
    let avgGain := ((lastds.map (fun d => if d > 0 then d else 0)).sum) / period
    let avgLoss := ((lastds.map (fun d => if d < 0 then -d else 0)).sum) / period
    if avgLoss = 0 then
      if avgGain = 0 then .nan else .val 100
    else .val (100 - 100 / (1 + avgGain / avgLoss))

/-- `TradingLogic.calculate_sma`: mean of the trailing `period` points;
`None` below `period` points. -/
def calcSMA (series : List ℚ) (period : ℕ) : Option ℚ :=
  if series.length < period then none
  else some (((series.drop (series.length - period)).sum) / period)

/-! ## Decision ledger records and orders -/

/-- Which sell rule fired (the distinct `sell_reason` texts of
`check_portfolio_risks`). -/
inductive SellKind
  | protectedProfit   -- "Protected Profit Stop hit"
  | atrStop           -- "ATR Stop triggered"
  | hardStop          -- "Hard Stop-Loss reached (ATR unavailable)"
  | trailingTP        -- "Trailing Profit Taken"
  | breakdown         -- "Trend Breakdown"
  deriving Repr, DecidableEq

/-- Structured stand-in for the free-text `decision_reason` strings. -/
inductive ReasonKind
  | invalidTicker         -- "SKIP: Ticker not found/tradable"
  | cooldown              -- "SKIP: 4-hour cooldown active"
  | maxConcentration      -- "SKIP: Max concentration reached"
  | technicalsWeak        -- "SKIP BUY: Technicals weak (RSI ...)"
  | downtrend             -- "SKIP BUY: ... confirmed downtrend"
  | belowSMA20            -- "SKIP BUY: ... below SMA20 ... SMA50 unavailable"
  | holisticBuy           -- "Holistic Buy (Rank ...)"
  | gapFill               -- "Fractional Gap-Fill"
  | swapSell              -- "Partial Swap for ..."
  | swapBuy               -- "Swap Buy via ..."
  | defenseMode           -- "DEFENSE_MODE / SAFE HOLD: all buys frozen"
  | gracePeriod           -- "Grace Period: Whipsaw breakdown suppressed"
  | riskSafe              -- "Safe from ATR Stop & Trailing TP & Whipsaw"
  | riskSell (k : SellKind)
  deriving Repr, DecidableEq

/-- The `action` column of a ledger row. -/
inductive DAction
  | HOLD | SELL | BUY | SKIP | DEFENSE
  deriving Repr, DecidableEq

/-- One `trade_logger.log_decision` row (the columns the claims need;
an absent dict key and an explicit `None` both model as `none`). -/
structure Decision where
  id : ℕ
  ticker : String
  action : DAction
  quantity : Option ℚ
  price : ℚ
  sma_20 : Option ℚ
  sma_50 : Option ℚ
  atr_14 : Option ℚ
  rsi_14 : PyFloatOpt
  high_water_mark : Option ℚ
  reason : ReasonKind
  deriving Repr, DecidableEq

/-- Buy vs sell on an emitted order. -/
inductive OAction
  | buy | sell
  deriving Repr, DecidableEq

/-- Market vs limit order type. -/
inductive OType
  | market | limit
  deriving Repr, DecidableEq

/-- One order dict of the execution plan. -/
structure Order where
  ticker : String
  action : OAction
  quantity : ℚ
  order_type : OType
  limit_price : Option ℚ
  reason : ReasonKind
  decision_id : ℕ
  deriving Repr, DecidableEq

/-! ## Risk Evaluator (`check_portfolio_risks`) -/

/-- The price a holding is evaluated at:
`data.get('current_price') or self.fetch_price(ticker)` followed by
`if not current_price: continue` — `none` means the holding is skipped
(either both sources failed, or the resolved price is the falsy `0.0`). -/
def resolvedPrice (env : Env) (t : String) (data : HoldingData) : Option ℚ :=
  let cp :=
    match data.current_price with
    | some p => if p = 0 then fetchPrice env t else some p
    | none => fetchPrice env t
  match cp with
  | some c => if c = 0 then none else some c
  | none => none

/-- The ATR a holding sees (`calculate_atr(ohlc, self.atr_period)` guarded by
`ohlc is not None`; `calcATR` itself repeats the length guard). -/
def holdingATR (cfg : Cfg) (env : Env) (t : String) : Option ℚ :=
  (fetchHistory env t).bind (fun o => calcATR o cfg.atr_period)

/-- SMA20 over the holding's close series, `none` without history. -/
def holdingSMA20 (env : Env) (t : String) : Option ℚ :=
  (fetchHistory env t).bind (fun o => calcSMA (o.map (·.close)) 20)

/-- SMA50 over the holding's close series, `none` without history. -/
def holdingSMA50 (env : Env) (t : String) : Option ℚ :=
  (fetchHistory env t).bind (fun o => calcSMA (o.map (·.close)) 50)

/-- The pre-override stop price: `entry − atr_multiplier × ATR` when
`atr_14 and atr_14 > 0`, else the fixed-percent fallback
`entry × (1 − stop_loss_percent)`. -/
def stopPre (cfg : Cfg) (buy_price : ℚ) (atr : Option ℚ) : ℚ :=
  match atr with
  | some a => if a > 0 then buy_price - cfg.atr_multiplier * a
              else buy_price * (1 - cfg.stop_loss_percent)
  | none => buy_price * (1 - cfg.stop_loss_percent)

/-- The zero-loss override applied on top of `stopPre`: with unrealized gain
above 5%, raise the stop to `entry × 1.005` when that exceeds it.  Returns
the final stop and the `is_zero_loss_active` flag. -/
def stopAfterZL (cfg : Cfg) (buy_price current : ℚ) (atr : Option ℚ) : ℚ × Bool :=
  let s := stopPre cfg buy_price atr
  if buy_price > 0 ∧ (current - buy_price) / buy_price > 1/20 ∧
      buy_price * (201/200) > s then
    (buy_price * (201/200), true)
  else (s, false)

/-- High-water mark estimate: max of the last five bars' highs when at least
five bars exist, else the current price; then floored by the current price. -/
def highWaterMark (ohlc : Option (List Bar)) (current : ℚ) : ℚ :=
  let hwm :=
    match ohlc with
    | some o => if o.length ≥ 5 then listMax ((o.drop (o.length - 5)).map (·.high))
                else current
    | none => current
  max hwm current

/-- Priority-2 trailing take-profit trigger: active above 10% unrealized
gain, fires when the price sits 3% below the high-water mark. -/
def trailingTriggered (cfg : Cfg) (buy_price current : ℚ)
    (ohlc : Option (List Bar)) : Bool :=
  if buy_price > 0 ∧ (current - buy_price) / buy_price > cfg.trailing_activation_pct then
    current < highWaterMark ohlc current * (1 - cfg.trailing_drop_pct)
  else false

/-- Outcome classification of one holding in `check_portfolio_risks`. -/
inductive RiskTag
  | skipShares            -- `int(qty) <= 0`: silently skipped
  | skipPrice             -- price unresolvable/falsy: silently skipped
  | grace                 -- breakdown suppressed by the <24h grace period
  | hold
  | sell (k : SellKind)
  deriving Repr, DecidableEq

/-- The priority chain of `check_portfolio_risks` for one holding: ATR stop
with zero-loss override, then trailing take-profit, then whipsaw-protected
trend breakdown with its grace period. -/
def riskTag (cfg : Cfg) (env : Env) (panic : Bool) (t : String)
    (data : HoldingData) : RiskTag :=
  if pyInt data.qty ≤ 0 then .skipShares
  else
    match resolvedPrice env t data with
    | none => .skipPrice
    | some c =>
      let buy_price := data.avg_entry
      let ohlc := fetchHistory env t
      let atr := holdingATR cfg env t
      let (stop, zl) := stopAfterZL cfg buy_price c atr
      if c < stop then
        .sell (if zl then .protectedProfit
               else match atr with
                 | some a => if a ≠ 0 then .atrStop else .hardStop
                 | none => .hardStop)
      else if trailingTriggered cfg buy_price c ohlc then .sell .trailingTP
      else
        match holdingSMA20 env t, holdingSMA50 env t with
        | some v20, some v50 =>
          if v20 ≠ 0 ∧ v50 ≠ 0 ∧ c < v20 ∧ v20 < v50 then
            let hours := (env.last_buy_hours t).getD 999
            if hours < 24 ∧ ¬panic then .grace else .sell .breakdown
          else .hold
        | _, _ => .hold

/-- Output of evaluating one holding: logged decisions, emitted sell orders,
estimated proceeds, and the next ledger id. -/
structure HoldingOutcome where
  decisions : List Decision
  orders : List Order
  proceeds : ℚ
  nextId : ℕ
  deriving Repr, DecidableEq

/-- The loop body of `check_portfolio_risks` for one `(ticker, data)` pair:
classify via `riskTag`, then emit exactly the ledger rows and sell orders the
source logs on that path. -/
def evalHolding (cfg : Cfg) (env : Env) (panic : Bool) (nid : ℕ)
    (t : String) (data : HoldingData) : HoldingOutcome :=
  let shares := pyInt data.qty
  let c := (resolvedPrice env t data).getD 0
  let ohlc := fetchHistory env t
  let atr := holdingATR cfg env t
  let s20 := holdingSMA20 env t
  let s50 := holdingSMA50 env t
  match riskTag cfg env panic t data with
  | .skipShares => ⟨[], [], 0, nid⟩
  | .skipPrice => ⟨[], [], 0, nid⟩
  | .grace =>
    ⟨[{ id := nid, ticker := t, action := .HOLD, quantity := some (shares : ℚ),
        price := c, sma_20 := s20, sma_50 := s50, atr_14 := atr,
        rsi_14 := .none, high_water_mark := none, reason := .gracePeriod }],
      [], 0, nid + 1⟩
  | .hold =>
    ⟨[{ id := nid, ticker := t, action := .HOLD, quantity := some (shares : ℚ),
        price := c, sma_20 := s20, sma_50 := s50, atr_14 := atr,
        rsi_14 := .none, high_water_mark := none, reason := .riskSafe }],
      [], 0, nid + 1⟩
  | .sell k =>
    let log_hwm : Option ℚ :=
      match ohlc with
      | some o => if o.length ≥ 5 then
          some (max (listMax ((o.drop (o.length - 5)).map (·.high))) c) else none
      | none => none
    ⟨[{ id := nid, ticker := t, action := .SELL, quantity := some (shares : ℚ),
        price := c, sma_20 := s20, sma_50 := s50, atr_14 := atr,
        rsi_14 := .none, high_water_mark := log_hwm, reason := .riskSell k }],
      [{ ticker := t, action := .sell, quantity := (shares : ℚ),
         order_type := .limit, limit_price := some c,
         reason := .riskSell k, decision_id := nid }],
      c * (shares : ℚ), nid + 1⟩

/-- `TradingLogic.check_portfolio_risks`: fold `evalHolding` over the
holdings in order, accumulating decisions, sell orders and total proceeds. -/
def checkPortfolioRisks (cfg : Cfg) (env : Env) (panic : Bool) (nid : ℕ) :
    List (String × HoldingData) → HoldingOutcome
  | [] => ⟨[], [], 0, nid⟩
  | (t, data) :: rest =>
    let h := evalHolding cfg env panic nid t data
    let r := checkPortfolioRisks cfg env panic h.nextId rest
    ⟨h.decisions ++ r.decisions, h.orders ++ r.orders,
      h.proceeds + r.proceeds, r.nextId⟩

/-! ## Allocation Planner (`generate_plan`) -/

/-- Entry kind in the global rank list. -/
inductive RType
  | newSignal | holding
  deriving Repr, DecidableEq

/-- One entry of `rank_list` (`qty` is present for holdings and unused for
new signals, modelled as `0` there). -/
structure RankEntry where
  ticker : String
  rtype : RType
  rank_score : ℚ
  sent_score : ℚ
  dur_score : ℚ
  price : Option ℚ
  qty : ℚ
  deriving Repr, DecidableEq

/-- One `(ticker, {shares, buy_price})` record of the
`current_portfolio.json` fallback file. -/
structure PortfolioPos where
  ticker : String
  shares : ℚ
  buy_price : ℚ
  deriving Repr, DecidableEq

/-- Step 1 of `generate_plan`: the cost basis and
`current_holdings_data` map. With an API client, live positions (falling back
to the portfolio file when `list_positions` raises); without one, nothing. -/
def computeHoldings (env : Env) (portfolio : List PortfolioPos) :
    ℚ × List (String × HoldingData) :=
  if env.api_present then
    match env.list_positions with
    | .ok ps =>
      ((ps.map (fun p => p.qty * p.avg_entry_price)).sum,
        ps.map (fun p => (p.symbol,
          { qty := p.qty, avg_entry := p.avg_entry_price,
            current_price := some p.current_price })))
    | .error _ =>
      ((portfolio.map (fun p => p.shares * p.buy_price)).sum,
        portfolio.map (fun p => (p.ticker,
          { qty := p.shares, avg_entry := p.buy_price, current_price := none })))
  else (0, [])

/-- The cost basis committed at the start of a cycle (first component of
`computeHoldings`). -/
def costBasisOf (env : Env) (portfolio : List PortfolioPos) : ℚ :=
  (computeHoldings env portfolio).1

/-- The gravity-adjusted budget `self.budget * env_bias`. -/
def effectiveBudget (cfg : Cfg) (env_bias : ℚ) : ℚ := cfg.budget * env_bias

/-- The single write to `self.atr_multiplier` in `generate_plan`: halved in
safe-hold mode (`env_bias == 0`), scaled by 0.7 in defense mode
(`env_bias < 0.5`), untouched otherwise. -/
def updateAtrMult (env_bias m : ℚ) : ℚ :=
  if env_bias = 0 then m * (1/2)
  else if env_bias < 1/2 then m * (7/10)
  else m

/-- Accumulator while building the new-signal part of `rank_list`. -/
structure BuildState where
  entries : List RankEntry
  decisions : List Decision
  nextId : ℕ
  cache : List (String × Bool)
  deriving Repr

/-- Step 2A of `generate_plan`: turn each `action == 'Buy'` signal into a
rank entry (validating the ticker first, with the memoizing cache), logging a
SKIP row for invalid tickers. -/
def buildSignalEntries (env : Env) : BuildState → List Signal → BuildState
  | st, [] => st
  | st, sig :: rest =>
    if sig.action = "Buy" then
      let (ok, cache') := validateTicker
        (if env.api_present then some env.get_asset else none) st.cache sig.ticker
      if ok then
        let sent := sig.sentiment_score.getD 0
        let dur := sig.duration_score.getD (1/2)
        let e : RankEntry :=
          { ticker := sig.ticker, rtype := .newSignal, rank_score := sent * dur,
            sent_score := sent, dur_score := dur,
            price := fetchPrice env sig.ticker, qty := 0 }
        buildSignalEntries env { st with entries := st.entries ++ [e], cache := cache' } rest
      else
        let d : Decision :=
          { id := st.nextId, ticker := sig.ticker, action := .SKIP, quantity := none,
            price := 0, sma_20 := none, sma_50 := none, atr_14 := none,
            rsi_14 := .none, high_water_mark := none, reason := .invalidTicker }
        buildSignalEntries env
          { st with
            decisions := st.decisions ++ [d], nextId := st.nextId + 1,
            cache := cache' } rest
    else buildSignalEntries env st rest

/-- Step 2B of `generate_plan`: every held position joins the rank list,
scored by its latest ledger scores. -/
def holdingEntries (env : Env) (holdings : List (String × HoldingData)) :
    List RankEntry :=
  (holdings.filter (fun h => h.2.qty > 0)).map (fun (t, data) =>
    let (sent, dur) := env.latest_scores t
    { ticker := t, rtype := .holding, rank_score := sent * dur,
      sent_score := sent, dur_score := dur,
      price := fetchPrice env t, qty := data.qty })

/-- Stable descending insertion: `x` is placed before the first entry of
strictly smaller score, and before equal-score entries only when inserted
first (callers insert right-to-left, so original order wins ties). -/
def insertDesc (x : RankEntry) : List RankEntry → List RankEntry
  | [] => [x]
  | y :: ys => if y.rank_score ≤ x.rank_score then x :: y :: ys
               else y :: insertDesc x ys

/-- Step 2C: `rank_list.sort(key=rank_score, reverse=True)` — Python's
stable sort, descending by `rank_score`, modelled as a stable insertion
sort. -/
def sortRank (l : List RankEntry) : List RankEntry := l.foldr insertDesc []

/-- Result of the technical-filter block for one new signal: the indicator
values it computed, and a skip reason when a filter rejected the buy. -/
structure TechOut where
  skip : Option ReasonKind
  rsi : PyFloatOpt
  s20 : Option ℚ
  s50 : Option ℚ
  deriving Repr, DecidableEq

/-- The technical filter of the buy loop (RSI overbought check, then the
whipsaw-protected downtrend entry filter with its contrarian exceptions).
Faithfully evaluates `rsi > 75 or (rsi >= 65 and new_price <= sma_20)`
left-to-right with Python's error semantics: a `None` RSI raises. -/
def techFilter (env : Env) (t : String) (p new_rank : ℚ) :
    Except PyErr TechOut :=
  match fetchHistory env t with
  | none => .ok ⟨none, .none, none, none⟩
  | some o =>
    let closes := o.map (·.close)
    let rsi := calcRSI closes 14
    let s20 := calcSMA closes 20
    let s50 := calcSMA closes 50
    do
      let c1 ← pyGT rsi 75
      let overbought ←
        if c1 then pure true
        else do
          let c2 ← pyGE rsi 65
          if c2 then pyLE p s20 else pure false
      if overbought then
        return ⟨some .technicalsWeak, rsi, s20, s50⟩
      let is_oversold :=
        match rsi with
        | .val q => decide (q < 35)
        | _ => false
      match s20, s50 with
      | some v20, some v50 =>
        if v20 ≠ 0 ∧ v50 ≠ 0 ∧ p < v20 ∧ v20 < v50 then
          if is_oversold || decide (new_rank ≥ 1/2) then return ⟨none, rsi, s20, s50⟩
          else return ⟨some .downtrend, rsi, s20, s50⟩
        else return ⟨none, rsi, s20, s50⟩
      | some v20, none =>
        if v20 ≠ 0 ∧ p < v20 then
          if is_oversold || decide (new_rank ≥ 1/2) then return ⟨none, rsi, s20, s50⟩
          else return ⟨some .belowSMA20, rsi, s20, s50⟩
        else return ⟨none, rsi, s20, s50⟩
      | _, _ => return ⟨none, rsi, s20, s50⟩

/-- Mutable state of the buy/swap loop of `generate_plan`. -/
structure PlanState where
  orders : List Order
  decisions : List Decision
  nextId : ℕ
  remaining : ℚ
  sold : List String
  deriving Repr

/-- Append one logged decision. -/
def PlanState.log (st : PlanState) (d : ℕ → Decision) : PlanState :=
  { st with decisions := st.decisions ++ [d st.nextId], nextId := st.nextId + 1 }

/-- A SKIP ledger row of the buy loop. -/
def skipDecision (t : String) (p : ℚ) (reason : ReasonKind)
    (rsi : PyFloatOpt) (s20 s50 : Option ℚ) (id : ℕ) : Decision :=
  { id := id, ticker := t, action := .SKIP, quantity := none, price := p,
    sma_20 := s20, sma_50 := s50, atr_14 := none, rsi_14 := rsi,
    high_water_mark := none, reason := reason }

/-- A BUY ledger row of the buy loop. -/
def buyDecision (t : String) (qty p : ℚ) (reason : ReasonKind)
    (rsi : PyFloatOpt) (s20 s50 : Option ℚ) (id : ℕ) : Decision :=
  { id := id, ticker := t, action := .BUY, quantity := some qty, price := p,
    sma_20 := s20, sma_50 := s50, atr_14 := none, rsi_14 := rsi,
    high_water_mark := none, reason := reason }

/-- Hybrid sizing of the swap buy: whole shares (limit) when the proceeds
buy at least one share, else a 4-decimal fractional market quantity, else
nothing. -/
def swapSizing (raw_swap_qty : ℚ) : ℚ × OType :=
  if raw_swap_qty ≥ 1 then ((⌊raw_swap_qty⌋ : ℚ), .limit)
  else if raw_swap_qty > 0 then (pyRound4 raw_swap_qty, .market)
  else (0, .limit)

/-- The swap improvement threshold: a new signal displaces a holding when it
beats the holding's score by 20%, or simply exceeds 0.1 when the holding's
score is at most 0.01. -/
def swapThreshold (old_rank new_rank : ℚ) : Prop :=
  if old_rank ≤ 1/100 then new_rank > 1/10 else new_rank > old_rank * (12/10)

instance swapThreshold.decidable (a b : ℚ) : Decidable (swapThreshold a b) := by
  unfold swapThreshold
  infer_instance

/-- The swap-fallback scan (`for potential_swap in reversed(rank_list)`):
find the first not-yet-sold holding whose score the new signal beats, sell
half of it, buy the new ticker from the proceeds, recycle any leftover.
Multiplying the swap quantity with a `None` holding price raises. -/
def swapScan (t : String) (p new_rank : ℚ) (st : PlanState) :
    List RankEntry → Except PyErr PlanState
  | [] => .ok st
  | e :: rest =>
    if e.rtype = .holding ∧ e.ticker ∉ st.sold then
      if swapThreshold e.rank_score new_rank then
        let swap_qty : ℤ := ⌊e.qty * (1/2)⌋
        if swap_qty ≤ 0 then swapScan t p new_rank st rest
        else do
          let proceeds ← pyMulOpt (swap_qty : ℚ) e.price
          let old_price := e.price.getD 0
          let st := { st with sold := st.sold ++ [e.ticker] }
          let sell_d : Decision :=
            { id := st.nextId, ticker := e.ticker, action := .SELL,
              quantity := some (swap_qty : ℚ), price := old_price,
              sma_20 := none, sma_50 := none, atr_14 := none, rsi_14 := .none,
              high_water_mark := none, reason := .swapSell }
          let sell_o : Order :=
            { ticker := e.ticker, action := .sell, quantity := (swap_qty : ℚ),
              order_type := .limit, limit_price := some old_price,
              reason := .swapSell, decision_id := st.nextId }
          let st :=
            { st with
              decisions := st.decisions ++ [sell_d],
              orders := st.orders ++ [sell_o], nextId := st.nextId + 1 }
          let raw_swap_qty := proceeds / p
          let shares_to_buy_swap := (swapSizing raw_swap_qty).1
          let swap_type := (swapSizing raw_swap_qty).2
          let st :=
            if shares_to_buy_swap > 0 then
              let buy_d := buyDecision t shares_to_buy_swap p .swapBuy .none none none st.nextId
              let buy_o : Order :=
                { ticker := t, action := .buy, quantity := shares_to_buy_swap,
                  order_type := swap_type,
                  limit_price := if swap_type = .limit then some p else none,
                  reason := .swapBuy, decision_id := st.nextId }
              { st with
                decisions := st.decisions ++ [buy_d],
                orders := st.orders ++ [buy_o], nextId := st.nextId + 1 }
            else st
          let buy_cost := if shares_to_buy_swap > 0 then shares_to_buy_swap * p else 0
          let leftover := proceeds - buy_cost
          let st :=
            if leftover > 0 then { st with remaining := st.remaining + leftover } else st
          return st
      else swapScan t p new_rank st rest
    else swapScan t p new_rank st rest

/-- Recompute a whole-share buy downward when its cost exceeds the
remaining budget: returns the final share count and cost. -/
def wholeCap (s1 : ℤ) (p remaining : ℚ) : ℤ × ℚ :=
  if (s1 : ℚ) * p > remaining then
    (⌊remaining / p⌋, ((⌊remaining / p⌋ : ℤ) : ℚ) * p)
  else (s1, (s1 : ℚ) * p)

/-- `current_holdings_data.get(ticker, {})`: association lookup by ticker. -/
def holdingsLookup (t : String) : List (String × HoldingData) → Option HoldingData
  | [] => none
  | (t', d) :: rest => if t' = t then some d else holdingsLookup t rest

/-- The buy loop body for one rank-list entry (step 4 of `generate_plan`):
cooldown and concentration guards, technical filter, hybrid whole/fractional
sizing against `remaining_budget`, swap fallback. -/
def processOne (cfg : Cfg) (env : Env) (rankList : List RankEntry)
    (holdings : List (String × HoldingData)) (st : PlanState)
    (item : RankEntry) : Except PyErr PlanState :=
  match item.rtype with
  | .holding => .ok st
  | .newSignal =>
    match item.price with
    | none => .ok st
    | some p =>
      if p = 0 then .ok st
      else if env.on_cooldown item.ticker then
        .ok (st.log (skipDecision item.ticker p .cooldown .none none none))
      else
        let max_shares : ℤ := ⌊cfg.budget * cfg.max_concentration_percent / p⌋
        let held : ℤ := pyInt (((holdingsLookup item.ticker holdings).map (·.qty)).getD 0)
        if held ≥ max_shares then
          .ok (st.log (skipDecision item.ticker p .maxConcentration .none none none))
        else do
          let tf ← techFilter env item.ticker p item.rank_score
          match tf.skip with
          | some r => .ok (st.log (skipDecision item.ticker p r tf.rsi tf.s20
              (if r = .belowSMA20 then none else tf.s50)))
          | none =>
            let target := cfg.budget * cfg.risk_per_trade_percent
            let raw_qty := target / p
            if raw_qty ≥ 1 ∧ st.remaining ≥ p then
              -- primary whole-share limit order
              let s0 : ℤ := ⌊raw_qty⌋
              -- minimum-1-share upgrade (only reachable when s0 = 0)
              let s1 : ℤ :=
                if s0 = 0 then
                  if ⌊cfg.budget * cfg.max_concentration_percent / p⌋ ≥ 1 then 1 else s0
                else s0
              if s1 > 0 then
                let s2 : ℤ := (wholeCap s1 p st.remaining).1
                let cost2 : ℚ := (wholeCap s1 p st.remaining).2
                if s2 > 0 then
                  let st := { st with remaining := st.remaining - cost2 }
                  let d := buyDecision item.ticker ((s2 : ℤ) : ℚ) p .holisticBuy tf.rsi tf.s20 tf.s50 st.nextId
                  let o : Order :=
                    { ticker := item.ticker, action := .buy, quantity := ((s2 : ℤ) : ℚ),
                      order_type := .limit, limit_price := some p,
                      reason := .holisticBuy, decision_id := st.nextId }
                  .ok { st with
                        decisions := st.decisions ++ [d],
                        orders := st.orders ++ [o], nextId := st.nextId + 1 }
                else swapScan item.ticker p item.rank_score st rankList.reverse
              else swapScan item.ticker p item.rank_score st rankList.reverse
            else if 0 < raw_qty ∧ raw_qty < 1 ∧ 0 < st.remaining ∧ st.remaining < p then
              -- gap-filler fractional market order
              let frac_qty := pyRound4 (st.remaining / p)
              if frac_qty > 0 then
                let cost := frac_qty * p
                let st := { st with remaining := st.remaining - cost }
                let d := buyDecision item.ticker frac_qty p .gapFill tf.rsi tf.s20 tf.s50 st.nextId
                let o : Order :=
                  { ticker := item.ticker, action := .buy, quantity := frac_qty,
                    order_type := .market, limit_price := none,
                    reason := .gapFill, decision_id := st.nextId }
                .ok { st with
                      decisions := st.decisions ++ [d],
                      orders := st.orders ++ [o], nextId := st.nextId + 1 }
              else swapScan item.ticker p item.rank_score st rankList.reverse
            else swapScan item.ticker p item.rank_score st rankList.reverse

/-- Fold `processOne` over the sorted rank list. -/
def processAll (cfg : Cfg) (env : Env) (rankList : List RankEntry)
    (holdings : List (String × HoldingData)) :
    PlanState → List RankEntry → Except PyErr PlanState
  | st, [] => .ok st
  | st, item :: rest => do
    let st' ← processOne cfg env rankList holdings st item
    processAll cfg env rankList holdings st' rest

/-- The `'ticker': 'SYSTEM', 'action': 'DEFENSE_MODE'` ledger row logged when
all buys are frozen. -/
def defenseDecision : Decision :=
  { id := 0, ticker := "SYSTEM", action := .DEFENSE, quantity := none,
    price := 0, sma_20 := none, sma_50 := none, atr_14 := none,
    rsi_14 := .none, high_water_mark := none, reason := .defenseMode }

/-- The output of one `generate_plan` cycle (the returned order list plus the
observable side effects: ledger rows, the final tracked budget, the mutated
ATR multiplier). -/
structure PlanOut where
  orders : List Order
  decisions : List Decision
  remaining : ℚ
  atr_multiplier : ℚ
  nextId : ℕ
  deriving Repr, DecidableEq

/-- Whether a run completed without a Python exception. -/
def exceptOk {α : Type} : Except PyErr α → Bool
  | .ok _ => true
  | .error _ => false

/-- The result of a completed run (defaulting an aborted run to the empty
output, for stating concrete facts without binders). -/
def planOutD : Except PyErr PlanOut → PlanOut
  | .ok st => st
  | .error _ => ⟨[], [], 0, 0, 0⟩

/-- `TradingLogic.generate_plan`: gravity-adjusted budget, defense/safe-hold
modes, cost-basis budgeting, global ranking, risk checks with liquidity
recycling, then the buy/swap loop. -/
def generatePlan (cfg : Cfg) (env : Env) (signals : List Signal)
    (portfolio : List PortfolioPos) (env_bias : ℚ) : Except PyErr PlanOut :=
  let effective_budget := effectiveBudget cfg env_bias
  let safe_hold := env_bias = 0
  let defense := env_bias < 1/2
  let panic := decide (env_bias < 3/10)
  let atrMult' := updateAtrMult env_bias cfg.atr_multiplier
  let cfg' := { cfg with atr_multiplier := atrMult' }
  let (cost_basis, holdings) := computeHoldings env portfolio
  let remaining0 := effective_budget - cost_basis
  let build : BuildState :=
    if defense ∨ safe_hold then
      { entries := [], decisions := [defenseDecision], nextId := 1, cache := [] }
    else buildSignalEntries env ⟨[], [], 0, []⟩ signals
  let rank_list := sortRank (build.entries ++ holdingEntries env holdings)
  let risk := checkPortfolioRisks cfg' env panic build.nextId holdings
  let remaining1 := if risk.proceeds > 0 then remaining0 + risk.proceeds else remaining0
  let st0 : PlanState :=
    { orders := risk.orders, decisions := build.decisions ++ risk.decisions,
      nextId := risk.nextId, remaining := remaining1,
      sold := risk.orders.map (·.ticker) }
  (processAll cfg' env rank_list holdings st0 rank_list).map (fun st =>
    { orders := st.orders, decisions := st.decisions,
      remaining := st.remaining, atr_multiplier := atrMult',
      nextId := st.nextId })

/-! ## Aggregates over the decision log -/

/-- Total cost of all planned buys: `Σ quantity × price` over BUY rows. -/
def sumBuyCost (ds : List Decision) : ℚ :=
  (ds.map (fun d => if d.action = .BUY then d.quantity.getD 0 * d.price else 0)).sum

/-- Total planned-at prices of all buys (carrier of the 4-decimal rounding
slack: each fractional buy can overshoot its funds by at most
`price / 20000`). -/
def sumBuyPrice (ds : List Decision) : ℚ :=
  (ds.map (fun d => if d.action = .BUY then d.price else 0)).sum

/-- Total estimated proceeds of all planned sells (risk sells and swap
sells): `Σ quantity × price` over SELL rows. -/
def sumSellProceeds (ds : List Decision) : ℚ :=
  (ds.map (fun d => if d.action = .SELL then d.quantity.getD 0 * d.price else 0)).sum

/-- Placeholder row used only to state facts about `List.headD`. -/
def defaultDecision : Decision :=
  { id := 0, ticker := "", action := .SKIP, quantity := none, price := 0,
    sma_20 := none, sma_50 := none, atr_14 := none, rsi_14 := .none,
    high_water_mark := none, reason := .riskSafe }

/-- Well-formedness of the market-data collaborator: every price it can
produce is nonnegative (the spec treats a negative price as malformed,
fatal input). -/
def EnvPriceNonneg (env : Env) : Prop :=
  (∀ t p, env.latest_trade t = .ok p → 0 ≤ p) ∧
  (∀ t p, env.manual_price t = some p → 0 ≤ p)

/-- `EnvPriceNonneg` plus nonnegative live position prices. -/
def EnvNonneg (env : Env) : Prop :=
  EnvPriceNonneg env ∧
  (∀ ps, env.list_positions = .ok ps → ∀ p ∈ ps, 0 ≤ p.current_price)

end StockExchange

namespace StockExchange

/-! ## Basic facts about the numeric primitives -/

theorem pyRound4_le (x : ℚ) : pyRound4 x ≤ x + 1/20000 := by
  have h : (roundHalfEven (x * 10000) : ℚ) ≤ x * 10000 + 1/2 := by
    simp only [roundHalfEven]
    have hf : (⌊x * 10000⌋ : ℚ) ≤ x * 10000 := Int.floor_le _
    split_ifs with h1 h2 h3
    · linarith
    · push_cast; linarith
    · linarith
    · push_cast; linarith
  unfold pyRound4
  linarith

theorem pyInt_floor_of_nonneg {q : ℚ} (h : 0 ≤ q) : pyInt q = ⌊q⌋ := by
  simp [pyInt, h]

/-! ## C8: zero-loss override monotonicity -/

/-- **C8** (confirmed).  The zero-loss override is monotone: for every
configuration, entry price, current price, and ATR value, the stop price
after the override (`stopAfterZL`) is at least the pre-override stop
(`stopPre`, ATR-based or fixed-percent fallback); the override never lowers
an already-computed stop. -/
theorem C8_zero_loss_override_monotone (cfg : Cfg) (buy_price current : ℚ)
    (atr : Option ℚ) :
    stopPre cfg buy_price atr ≤ (stopAfterZL cfg buy_price current atr).1 := by
  simp only [stopAfterZL]
  split_ifs with h
  · exact le_of_lt h.2.2
  · exact le_refl _

end StockExchange

namespace StockExchange

/-! ## C10: integer truncation of holding quantities -/

/-- **C10** (confirmed).  `check_portfolio_risks` truncates a holding's
quantity with `int(...)`: a fractional position `0 < qty < 1` is skipped
entirely (no decision record, no order, no proceeds), and every sell order it
emits carries the integer-truncated position as its quantity. -/
theorem C10_risk_shares_truncated (cfg : Cfg) (env : Env) (panic : Bool)
    (nid : ℕ) (t : String) (data : HoldingData) :
    (0 < data.qty → data.qty < 1 →
      evalHolding cfg env panic nid t data = ⟨[], [], 0, nid⟩)
    ∧ ∀ o ∈ (evalHolding cfg env panic nid t data).orders,
        o.quantity = ((pyInt data.qty : ℤ) : ℚ) := by
  constructor
  · intro h1 h2
    have hz : pyInt data.qty = 0 := by
      rw [pyInt_floor_of_nonneg h1.le]
      exact Int.floor_eq_zero_iff.mpr ⟨h1.le, h2⟩
    have hrt : riskTag cfg env panic t data = .skipShares := by
      simp [riskTag, hz]
    simp [evalHolding, hrt]
  · intro o ho
    cases hrt : riskTag cfg env panic t data <;>
      simp [evalHolding, hrt] at ho
    rw [ho]

end StockExchange

namespace StockExchange

/-! ## C6: no breakdown sell without SMA50 -/

/-- **C6** (confirmed).  A trend-breakdown sell requires both
`price < SMA20` and `SMA20 < SMA50` with both SMAs available (truthy); when
SMA50 is unavailable `check_portfolio_risks` never classifies a holding as a
breakdown sell, and an SMA20 breach alone — with the stop-loss and the
trailing take-profit not triggered — always results in a HOLD. -/
theorem C6_breakdown_needs_both_smas (cfg : Cfg) (env : Env) (panic : Bool)
    (t : String) (data : HoldingData) :
    (riskTag cfg env panic t data = .sell .breakdown →
      ∃ c v20 v50, resolvedPrice env t data = some c ∧
        holdingSMA20 env t = some v20 ∧ holdingSMA50 env t = some v50 ∧
        v20 ≠ 0 ∧ v50 ≠ 0 ∧ c < v20 ∧ v20 < v50)
    ∧ (truthy (holdingSMA50 env t) = false →
        riskTag cfg env panic t data ≠ .sell .breakdown)
    ∧ (∀ c, 0 < pyInt data.qty → resolvedPrice env t data = some c →
        truthy (holdingSMA50 env t) = false →
        ¬ c < (stopAfterZL cfg data.avg_entry c (holdingATR cfg env t)).1 →
        trailingTriggered cfg data.avg_entry c (fetchHistory env t) = false →
        riskTag cfg env panic t data = .hold) := by
  have main : riskTag cfg env panic t data = .sell .breakdown →
      ∃ c v20 v50, resolvedPrice env t data = some c ∧
        holdingSMA20 env t = some v20 ∧ holdingSMA50 env t = some v50 ∧
        v20 ≠ 0 ∧ v50 ≠ 0 ∧ c < v20 ∧ v20 < v50 := by
    intro h
    by_cases hq : pyInt data.qty ≤ 0
    · simp [riskTag, hq] at h
    · rcases hrp : resolvedPrice env t data with _ | c
      · simp [riskTag, hq, hrp] at h
      · rcases hz : stopAfterZL cfg data.avg_entry c (holdingATR cfg env t)
          with ⟨s, z⟩
        by_cases hcs : c < s
        · rcases ha : holdingATR cfg env t with _ | a <;> cases z <;>
            simp [riskTag, hq, hrp, hz, hcs, ha] at h <;>
            split_ifs at h <;> simp_all
        · by_cases htr : trailingTriggered cfg data.avg_entry c (fetchHistory env t)
          · simp [riskTag, hq, hrp, hz, hcs, htr] at h
          · rcases h20 : holdingSMA20 env t with _ | v20
            · simp [riskTag, hq, hrp, hz, hcs, htr, h20] at h
            · rcases h50 : holdingSMA50 env t with _ | v50
              · simp [riskTag, hq, hrp, hz, hcs, htr, h20, h50] at h
              · simp [riskTag, hq, hrp, hz, hcs, htr, h20, h50] at h
                split_ifs at h with hc hg
                exact ⟨c, v20, v50, rfl, rfl, rfl, hc.1, hc.2.1, hc.2.2.1,
                  hc.2.2.2⟩
  refine ⟨main, ?_, ?_⟩
  · intro h50 h
    obtain ⟨c, v20, v50, hrp, h20, h50', hv20, hv50, hcv, hvv⟩ := main h
    rw [h50'] at h50
    simp [truthy] at h50
    exact hv50 h50
  · intro c hq hrp h50 hstop htrail
    have hq' : ¬ pyInt data.qty ≤ 0 := not_le.mpr hq
    rcases hz : stopAfterZL cfg data.avg_entry c (holdingATR cfg env t)
      with ⟨s, z⟩
    rw [hz] at hstop
    simp only at hstop
    rcases h50' : holdingSMA50 env t with _ | v50
    · rcases h20 : holdingSMA20 env t with _ | v20 <;>
        simp [riskTag, hq', hrp, hz, hstop, htrail, h20, h50']
    · rw [h50'] at h50
      simp [truthy] at h50
      rcases h20 : holdingSMA20 env t with _ | v20 <;>
        simp [riskTag, hq', hrp, hz, hstop, htrail, h20, h50', h50]

end StockExchange

namespace StockExchange

/-! ## C7: 24-hour grace period vs panic mode -/

/-- **C7** (confirmed).  For a holding whose most recent BUY is less than 24
hours old and that satisfies the trend-breakdown condition
(`price < SMA20 < SMA50`, both SMAs truthy, stop-loss and trailing
take-profit not triggered): with `panic_mode = false` the holding is held
and a single HOLD decision with grace-period reasoning is logged; with
`panic_mode = true` the identical condition produces a breakdown sell. -/
theorem C7_grace_period_vs_panic (cfg : Cfg) (env : Env) (nid : ℕ)
    (t : String) (data : HoldingData) (c v20 v50 h : ℚ)
    (hq : 0 < pyInt data.qty)
    (hrp : resolvedPrice env t data = some c)
    (h20 : holdingSMA20 env t = some v20)
    (h50 : holdingSMA50 env t = some v50)
    (hv20 : v20 ≠ 0) (hv50 : v50 ≠ 0) (hcv : c < v20) (hvv : v20 < v50)
    (hstop : ¬ c < (stopAfterZL cfg data.avg_entry c (holdingATR cfg env t)).1)
    (htrail : trailingTriggered cfg data.avg_entry c (fetchHistory env t) = false)
    (hlb : env.last_buy_hours t = some h) (hh : h < 24) :
    (riskTag cfg env false t data = .grace
      ∧ (evalHolding cfg env false nid t data).orders = []
      ∧ (evalHolding cfg env false nid t data).decisions.length = 1
      ∧ ((evalHolding cfg env false nid t data).decisions.headD
          defaultDecision).action = .HOLD
      ∧ ((evalHolding cfg env false nid t data).decisions.headD
          defaultDecision).reason = .gracePeriod)
    ∧ (riskTag cfg env true t data = .sell .breakdown
      ∧ (evalHolding cfg env true nid t data).orders.length = 1
      ∧ ((evalHolding cfg env true nid t data).decisions.headD
          defaultDecision).action = .SELL
      ∧ ((evalHolding cfg env true nid t data).decisions.headD
          defaultDecision).reason = .riskSell .breakdown) := by
  have hq' : ¬ pyInt data.qty ≤ 0 := not_le.mpr hq
  rcases hz : stopAfterZL cfg data.avg_entry c (holdingATR cfg env t)
    with ⟨s, z⟩
  rw [hz] at hstop
  simp only at hstop
  have hrtf : riskTag cfg env false t data = .grace := by
    simp [riskTag, hq', hrp, hz, hstop, htrail, h20, h50, hv20, hv50, hcv,
      hvv, hlb, hh]
  have hrtt : riskTag cfg env true t data = .sell .breakdown := by
    simp [riskTag, hq', hrp, hz, hstop, htrail, h20, h50, hv20, hv50, hcv,
      hvv, hlb, hh]
  refine ⟨⟨hrtf, ?_⟩, hrtt, ?_⟩ <;>
    simp [evalHolding, hrtf, hrtt]

end StockExchange

namespace StockExchange

/-- Inversion for `Except.map` hitting `.ok`. -/
theorem exceptMap_ok {e a b : Type} (x : Except e a) (f : a → b) (out : b)
    (h : x.map f = .ok out) : ∃ st, x = .ok st ∧ out = f st := by
  cases x with
  | ok v => exact ⟨v, rfl, by simpa [Except.map] using h.symm⟩
  | error err => simp [Except.map] at h

/-! ## C9: compounding ATR-multiplier tightening -/

/-- **C9** (confirmed).  `generate_plan` multiplies the stored ATR
multiplier by 0.5 when `env_bias = 0` and by 0.7 whenever `env_bias < 0.5`,
leaves it unchanged otherwise, and no other operation restores it; a
completed plan's multiplier is exactly `updateAtrMult env_bias` of the old
one, so `n` consecutive defense-mode cycles compound to `0.7 ^ n` times the
initial value rather than a one-time reduction. -/
theorem C9_atr_multiplier_compounds :
    (∀ m : ℚ, updateAtrMult 0 m = m * (1/2))
    ∧ (∀ b m : ℚ, 0 < b → b < 1/2 → updateAtrMult b m = m * (7/10))
    ∧ (∀ b m : ℚ, 1/2 ≤ b → updateAtrMult b m = m)
    ∧ (∀ (cfg : Cfg) (env : Env) (signals : List Signal)
        (portfolio : List PortfolioPos) (bias : ℚ) (out : PlanOut),
        generatePlan cfg env signals portfolio bias = .ok out →
        out.atr_multiplier = updateAtrMult bias cfg.atr_multiplier)
    ∧ (∀ (biases : List ℚ) (m : ℚ), (∀ b ∈ biases, 0 < b ∧ b < 1/2) →
        biases.foldl (fun acc b => updateAtrMult b acc) m
          = (7/10) ^ biases.length * m) := by
  have h2 : ∀ b m : ℚ, 0 < b → b < 1/2 → updateAtrMult b m = m * (7/10) := by
    intro b m hb hb'
    unfold updateAtrMult
    rw [if_neg (ne_of_gt hb), if_pos hb']
  refine ⟨?_, h2, ?_, ?_, ?_⟩
  · intro m; simp [updateAtrMult]
  · intro b m hb
    have hbpos : (0 : ℚ) < b := lt_of_lt_of_le (by norm_num) hb
    unfold updateAtrMult
    rw [if_neg (ne_of_gt hbpos), if_neg (not_lt.mpr hb)]
  · intro cfg env signals portfolio bias out h
    unfold generatePlan at h
    rcases hch : computeHoldings env portfolio with ⟨cb, hd⟩
    simp only [hch] at h
    obtain ⟨st, _, hout⟩ := exceptMap_ok _ _ _ h
    rw [hout]
  · intro biases
    induction biases with
    | nil => intro m _; simp
    | cons b bs ih =>
      intro m hall
      have hb := hall b (List.mem_cons_self b bs)
      simp only [List.foldl_cons, List.length_cons]
      rw [ih (updateAtrMult b m) (fun x hx => hall x (List.mem_cons_of_mem b hx)),
        h2 b m hb.1 hb.2]
      ring

/-! ## C4: ticker validation fail-open scope -/

/-- **C4 counterexample** (claim as stated is false).  With an API client
present whose asset lookup raises, `validate_ticker` returns `False`
(fail-closed, "Asset not found on Alpaca — skipping"), not the `True` the
claim requires for every unreachable-collaborator situation. -/
theorem C4_validate_fail_open_cex :
    (validateTicker (some (fun _ => .error ())) [] "XYZ").1 = false := rfl

/-- **C4 amended** (proved).  `validate_ticker` fails open (returns `True`
and caches it) only when the API client is absent; when the asset lookup
call raises it returns `False` and caches `False`; a cached ticker is
answered from the cache, unchanged, for the lifetime of the run. -/
theorem C4_validate_fail_open_amended
    (api : Option (String → Except Unit Asset))
    (cache : List (String × Bool)) (t : String) :
    (cacheLookup t cache = none → api = none →
      validateTicker api cache t = (true, (t, true) :: cache))
    ∧ (∀ f, cacheLookup t cache = none → api = some f → f t = .error () →
      validateTicker api cache t = (false, (t, false) :: cache))
    ∧ (∀ b, cacheLookup t cache = some b →
      validateTicker api cache t = (b, cache)) := by
  refine ⟨?_, ?_, ?_⟩
  · intro hc ha; simp [validateTicker, hc, ha]
  · intro f hc ha hf; simp [validateTicker, hc, ha, hf]
  · intro b hc; simp [validateTicker, hc]

/-- **C4 amended witness**: the amended theorem applied at a concrete
environment (absent API client). -/
theorem C4_validate_fail_open_amended_witness :
    validateTicker none [] "ABC" = (true, [("ABC", true)]) :=
  (C4_validate_fail_open_amended none [] "ABC").1 rfl rfl

end StockExchange

namespace StockExchange

/-- With positive truncated shares and a resolved price, the risk loop
really evaluates the holding: the classification is a grace, a hold, or a
sell — never a silent skip. -/
theorem riskTag_evaluated (cfg : Cfg) (env : Env) (panic : Bool) (t : String)
    (data : HoldingData) (c : ℚ)
    (hq : ¬ pyInt data.qty ≤ 0) (hrp : resolvedPrice env t data = some c) :
    riskTag cfg env panic t data = .grace ∨ riskTag cfg env panic t data = .hold
    ∨ ∃ k, riskTag cfg env panic t data = .sell k := by
  rcases hz : stopAfterZL cfg data.avg_entry c (holdingATR cfg env t) with ⟨s, z⟩
  by_cases hcs : c < s
  · right; right
    refine ⟨if z then SellKind.protectedProfit
      else match holdingATR cfg env t with
        | some a => if a ≠ 0 then SellKind.atrStop else SellKind.hardStop
        | none => SellKind.hardStop, ?_⟩
    simp [riskTag, hq, hrp, hz, hcs]
  · by_cases htr : trailingTriggered cfg data.avg_entry c (fetchHistory env t)
    · right; right
      exact ⟨.trailingTP, by simp [riskTag, hq, hrp, hz, hcs, htr]⟩
    · rcases h20 : holdingSMA20 env t with _ | v20
      · right; left; simp [riskTag, hq, hrp, hz, hcs, htr, h20]
      · rcases h50 : holdingSMA50 env t with _ | v50
        · right; left; simp [riskTag, hq, hrp, hz, hcs, htr, h20, h50]
        · by_cases hc : v20 ≠ 0 ∧ v50 ≠ 0 ∧ c < v20 ∧ v20 < v50
          · by_cases hg : (env.last_buy_hours t).getD 999 < 24 ∧ ¬panic
            · left
              simp [riskTag, hq, hrp, hz, hcs, htr, h20, h50, hc.1, hc.2.1,
                hc.2.2.1, hc.2.2.2, hg.1, hg.2]
            · right; right
              refine ⟨.breakdown, ?_⟩
              simp only [riskTag, hq, hrp, hz, hcs, htr, h20, h50,
                Bool.false_eq_true, if_false]
              rw [if_pos hc, if_neg hg]
          · right; left
            simp only [riskTag, hq, hrp, hz, hcs, htr, h20, h50,
              Bool.false_eq_true, if_false]
            rw [if_neg hc]

end StockExchange

namespace StockExchange

/-! ## C5: one decision record per evaluated holding -/

/-- Engine configuration for the C5 counterexample. -/
def cfgC5 : Cfg :=
  { budget := 1000, risk_per_trade_percent := 1/10,
    stop_loss_percent := 8/100, max_concentration_percent := 1/5 }

/-- Collaborator environment for the C5 counterexample: every market-data
call fails, so neither the snapshot nor `fetch_price` yields a price. -/
def envC5 : Env :=
  { api_present := false, get_asset := fun _ => .error (),
    latest_trade := fun _ => .error (), manual_price := fun _ => none,
    history := fun _ => none, on_cooldown := fun _ => false,
    last_buy_hours := fun _ => none, latest_scores := fun _ => (0, 0),
    list_positions := .error () }

/-- **C5 counterexample** (claim as stated is false).  A holding of one full
share whose current price can be fetched neither from the snapshot nor from
the collaborator is skipped by `check_portfolio_risks` with *no* decision
record at all — not the "exactly one HOLD or SELL record even when the price
cannot be fetched" the claim requires. -/
theorem C5_decision_record_cex :
    (0 : ℤ) < pyInt 1
    ∧ (evalHolding cfgC5 envC5 false 0 "AAA" ⟨1, 100, none⟩).decisions = [] := by
  constructor
  · norm_num [pyInt]
  · have hrt : riskTag cfgC5 envC5 false "AAA" ⟨1, 100, none⟩ = .skipPrice := by
      norm_num [riskTag, pyInt, resolvedPrice, fetchPrice, envC5]
    simp [evalHolding, hrt]

/-- **C5 amended** (proved).  Whenever the holding's truncated share count
is positive *and* its current price resolves (even with history
unavailable), `check_portfolio_risks` logs exactly one decision record, a
HOLD or a SELL, carrying the computed indicator values (SMA20, SMA50,
ATR), the resolved price and the truncated quantity; when the price cannot
be resolved — or the truncated share count is not positive — the holding is
skipped with no record and no order. -/
theorem C5_decision_record_amended (cfg : Cfg) (env : Env) (panic : Bool)
    (nid : ℕ) (t : String) (data : HoldingData) :
    (resolvedPrice env t data = none →
      (evalHolding cfg env panic nid t data).decisions = []
      ∧ (evalHolding cfg env panic nid t data).orders = [])
    ∧ (pyInt data.qty ≤ 0 →
      (evalHolding cfg env panic nid t data).decisions = []
      ∧ (evalHolding cfg env panic nid t data).orders = [])
    ∧ (∀ c, 0 < pyInt data.qty → resolvedPrice env t data = some c →
      (evalHolding cfg env panic nid t data).decisions.length = 1
      ∧ (((evalHolding cfg env panic nid t data).decisions.headD
            defaultDecision).action = .HOLD
         ∨ ((evalHolding cfg env panic nid t data).decisions.headD
            defaultDecision).action = .SELL)
      ∧ ((evalHolding cfg env panic nid t data).decisions.headD
            defaultDecision).sma_20 = holdingSMA20 env t
      ∧ ((evalHolding cfg env panic nid t data).decisions.headD
            defaultDecision).sma_50 = holdingSMA50 env t
      ∧ ((evalHolding cfg env panic nid t data).decisions.headD
            defaultDecision).atr_14 = holdingATR cfg env t
      ∧ ((evalHolding cfg env panic nid t data).decisions.headD
            defaultDecision).price = c
      ∧ ((evalHolding cfg env panic nid t data).decisions.headD
            defaultDecision).quantity = some ((pyInt data.qty : ℤ) : ℚ)) := by
  refine ⟨?_, ?_, ?_⟩
  · intro hrp
    by_cases hq : pyInt data.qty ≤ 0
    · have hrt : riskTag cfg env panic t data = .skipShares := by
        simp [riskTag, hq]
      simp [evalHolding, hrt]
    · have hrt : riskTag cfg env panic t data = .skipPrice := by
        simp [riskTag, hq, hrp]
      simp [evalHolding, hrt]
  · intro hq
    have hrt : riskTag cfg env panic t data = .skipShares := by
      simp [riskTag, hq]
    simp [evalHolding, hrt]
  · intro c hq hrp
    have hq' : ¬ pyInt data.qty ≤ 0 := not_le.mpr hq
    rcases riskTag_evaluated cfg env panic t data c hq' hrp
      with hrt | hrt | ⟨k, hrt⟩ <;>
      simp [evalHolding, hrt, hrp]

end StockExchange

namespace StockExchange

/-- Environment with every collaborator call failing (witness contexts). -/
def envAllFail : Env :=
  { api_present := false, get_asset := fun _ => .error (),
    latest_trade := fun _ => .error (), manual_price := fun _ => none,
    history := fun _ => none, on_cooldown := fun _ => false,
    last_buy_hours := fun _ => none, latest_scores := fun _ => (0, 0),
    list_positions := .error () }

/-- **C10 witness**: the theorem applied to a concrete half-share holding. -/
theorem C10_risk_shares_truncated_witness :
    evalHolding
      { budget := 1000, risk_per_trade_percent := 1/10,
        stop_loss_percent := 8/100, max_concentration_percent := 1/5 }
      envAllFail false 0 "AAA" ⟨1/2, 100, some 50⟩ = ⟨[], [], 0, 0⟩ :=
  (C10_risk_shares_truncated _ envAllFail false 0 "AAA" ⟨1/2, 100, some 50⟩).1
    (by norm_num) (by norm_num)

/-- Engine configuration for the C6 witness. -/
def cfgC6w : Cfg :=
  { budget := 1000, risk_per_trade_percent := 1/10,
    stop_loss_percent := 8/100, max_concentration_percent := 1/5 }

/-- **C6 witness**: with no history at all (SMA50 unavailable) and neither
stop nor trailing take-profit triggered, the concrete holding is held. -/
theorem C6_breakdown_needs_both_smas_witness :
    riskTag cfgC6w envAllFail false "AAA" ⟨1, 100, some 95⟩ = .hold :=
  (C6_breakdown_needs_both_smas cfgC6w envAllFail false "AAA"
      ⟨1, 100, some 95⟩).2.2 95
    (by norm_num [pyInt])
    (by norm_num [resolvedPrice])
    (by norm_num [truthy, holdingSMA50, fetchHistory, envAllFail])
    (by norm_num [stopAfterZL, stopPre, holdingATR, fetchHistory, envAllFail, cfgC6w])
    (by norm_num [trailingTriggered, cfgC6w])

/-- **C5 amended witness**: the amended theorem applied at a holding whose
price resolves through `fetch_price`. -/
theorem C5_decision_record_amended_witness :
    (evalHolding cfgC6w
      { envAllFail with manual_price := fun _ => some 50 }
      false 0 "BBB" ⟨2, 100, none⟩).decisions.length = 1 :=
  ((C5_decision_record_amended cfgC6w
      { envAllFail with manual_price := fun _ => some 50 }
      false 0 "BBB" ⟨2, 100, none⟩).2.2 50
    (by norm_num [pyInt])
    (by norm_num [resolvedPrice, fetchPrice, envAllFail])).1

end StockExchange

namespace StockExchange

/-- Engine configuration for the C7 witness. -/
def cfgC7w : Cfg :=
  { budget := 1000, risk_per_trade_percent := 1/10,
    stop_loss_percent := 8/100, max_concentration_percent := 1/5 }

/-- Fifty daily bars: thirty at 200 then twenty at 100, giving
SMA20 = 100 < SMA50 = 160 and a zero ATR over the stable last 14 bars. -/
def barsC7 : List Bar :=
  List.replicate 30 ⟨200, 200, 200⟩ ++ List.replicate 20 ⟨100, 100, 100⟩

/-- Environment for the C7 witness: live history with a confirmed downtrend
and a BUY five hours ago. -/
def envC7w : Env :=
  { envAllFail with
    api_present := true,
    history := fun _ => some barsC7,
    last_buy_hours := fun _ => some 5 }

/-- **C7 witness**: the theorem applied to a concrete downtrending, freshly
bought holding — grace HOLD without panic, breakdown sell with panic. -/
theorem C7_grace_period_vs_panic_witness :
    riskTag cfgC7w envC7w false "T" ⟨1, 95, some 90⟩ = .grace
    ∧ riskTag cfgC7w envC7w true "T" ⟨1, 95, some 90⟩ = .sell .breakdown := by
  have hATR : holdingATR cfgC7w envC7w "T" = some 0 := by
    norm_num [holdingATR, fetchHistory, envC7w, barsC7, calcATR, trueRanges,
      List.replicate, envAllFail, cfgC7w]
  have h := C7_grace_period_vs_panic cfgC7w envC7w 0 "T" ⟨1, 95, some 90⟩
    90 100 160 5
    (by norm_num [pyInt])
    (by norm_num [resolvedPrice])
    (by norm_num [holdingSMA20, fetchHistory, envC7w, barsC7, calcSMA,
      List.replicate, envAllFail])
    (by norm_num [holdingSMA50, fetchHistory, envC7w, barsC7, calcSMA,
      List.replicate, envAllFail])
    (by norm_num) (by norm_num) (by norm_num) (by norm_num)
    (by simp only [stopAfterZL, stopPre, hATR]; norm_num [cfgC7w])
    (by norm_num [trailingTriggered, cfgC7w])
    (by rfl) (by norm_num)
  exact ⟨h.1.1, h.2.1⟩

end StockExchange

namespace StockExchange

/-! ## C2: scenario C — $500 signal on a $1000 budget -/

/-- Scenario C configuration: `total_budget = 1000`,
`risk_per_trade_pct = 0.1`, `max_concentration_pct = 0.2`. -/
def cfgC2s : Cfg :=
  { budget := 1000, risk_per_trade_percent := 1/10,
    stop_loss_percent := 8/100, max_concentration_percent := 1/5 }

/-- Scenario C environment: no API client (so no holdings and full budget),
NVDA priced at $500 via the manual fallback, no history, no cooldown. -/
def envC2s : Env :=
  { api_present := false, get_asset := fun _ => .error (),
    latest_trade := fun _ => .error (),
    manual_price := fun t => if t = "NVDA" then some 500 else none,
    history := fun _ => none, on_cooldown := fun _ => false,
    last_buy_hours := fun _ => none, latest_scores := fun _ => (0, 0),
    list_positions := .error () }

/-- Scenario C signal: a new NVDA Buy with `rank_score = 0.75 × 0.8 = 0.6`. -/
def sigsC2s : List Signal := [⟨"NVDA", "Buy", some (3/4), some (4/5)⟩]

/-- **C2 counterexample** (claim as stated is false).  In scenario C the
cycle completes but emits *no* order at all — not the claimed single
one-share limit buy at $500. -/
theorem C2_min_share_upgrade_cex :
    exceptOk (generatePlan cfgC2s envC2s sigsC2s [] 1) = true
    ∧ (planOutD (generatePlan cfgC2s envC2s sigsC2s [] 1)).orders = [] := by
  norm_num [generatePlan, planOutD, exceptOk, cfgC2s, envC2s, sigsC2s,
    effectiveBudget, updateAtrMult, computeHoldings, buildSignalEntries,
    validateTicker, cacheLookup, fetchPrice, holdingEntries, sortRank,
    insertDesc, checkPortfolioRisks, processAll, processOne, techFilter,
    fetchHistory, skipDecision, PlanState.log, pyInt, holdingsLookup,
    bind, Except.bind, pure, Except.pure, Except.map]

/-- **C2 amended** (proved).  In scenario C the concentration cap
`floor(total_budget × max_concentration_pct / price) = floor(0.4) = 0` is
already reached by the empty position, so the signal is skipped with a
single max-concentration SKIP decision before sizing; the minimum-1-share
upgrade cannot fire (it sits inside the `raw_qty ≥ 1` branch, where the
floored share count is already ≥ 1, and the cap would in any case allow
zero shares). -/
theorem C2_min_share_upgrade_amended :
    (planOutD (generatePlan cfgC2s envC2s sigsC2s [] 1)).decisions =
      [{ id := 0, ticker := "NVDA", action := .SKIP, quantity := none,
         price := 500, sma_20 := none, sma_50 := none, atr_14 := none,
         rsi_14 := .none, high_water_mark := none,
         reason := .maxConcentration }]
    ∧ (planOutD (generatePlan cfgC2s envC2s sigsC2s [] 1)).orders = [] := by
  norm_num [generatePlan, planOutD, cfgC2s, envC2s, sigsC2s,
    effectiveBudget, updateAtrMult, computeHoldings, buildSignalEntries,
    validateTicker, cacheLookup, fetchPrice, holdingEntries, sortRank,
    insertDesc, checkPortfolioRisks, processAll, processOne, techFilter,
    fetchHistory, skipDecision, PlanState.log, pyInt, holdingsLookup,
    bind, Except.bind, pure, Except.pure, Except.map]

end StockExchange

namespace StockExchange

/-! ## C3: unavailable RSI aborts the cycle -/

/-- C3 configuration (concentration cap admits the $10 signal). -/
def cfgC3s : Cfg :=
  { budget := 1000, risk_per_trade_percent := 1/10,
    stop_loss_percent := 8/100, max_concentration_percent := 1/5 }

/-- C3 environment: live API, no positions, a valid tradable asset, a $10
latest trade, and a fetched history of exactly 14 daily bars — enough for
`fetch_history` to succeed but one bar short for `calculate_rsi`. -/
def envC3s : Env :=
  { api_present := true, get_asset := fun _ => .ok ⟨true, "active"⟩,
    latest_trade := fun _ => .ok 10, manual_price := fun _ => none,
    history := fun _ => some (List.replicate 14 ⟨10, 10, 10⟩),
    on_cooldown := fun _ => false, last_buy_hours := fun _ => none,
    latest_scores := fun _ => (0, 0), list_positions := .ok [] }

/-- The C3 candidate signal. -/
def sigsC3s : List Signal := [⟨"TTT", "Buy", some (1/2), some (1/2)⟩]

/-- **C3 failing input evaluated** (code_bug).  With a fetched history of 14
bars, `calculate_rsi` returns `None` and the overbought filter's
`rsi > 75` comparison raises a `TypeError`, aborting the whole planning
cycle instead of skipping the filter as the claim requires. -/
theorem C3_rsi_unavailable_raises :
    generatePlan cfgC3s envC3s sigsC3s [] 1 = .error .typeError := by
  norm_num [generatePlan, cfgC3s, envC3s, sigsC3s,
    effectiveBudget, updateAtrMult, computeHoldings, buildSignalEntries,
    validateTicker, cacheLookup, fetchPrice, holdingEntries, sortRank,
    insertDesc, checkPortfolioRisks, processAll, processOne, techFilter,
    fetchHistory, skipDecision, PlanState.log, pyInt, holdingsLookup,
    bind, Except.bind, pure, Except.pure, Except.map, calcRSI, calcSMA,
    pyGT, pyGE, pyLE, List.replicate]

end StockExchange

namespace StockExchange

/-! ## C1: budget invariant -/

/-- C1 counterexample configuration: $10000 principal, 0.1% risk per trade,
5% fixed stop, 20% concentration cap. -/
def cfgC1s : Cfg :=
  { budget := 10000, risk_per_trade_percent := 1/1000,
    stop_loss_percent := 1/20, max_concentration_percent := 2/10 }

/-- C1 counterexample environment: one live position "H" worth $9999.81 of
cost basis (leaving $0.19 of budget for the add-on candidate, quoted at
$1000), no history. -/
def envC1s : Env :=
  { api_present := true, get_asset := fun _ => .ok ⟨true, "active"⟩,
    latest_trade := fun _ => .ok 1000,
    manual_price := fun _ => none, history := fun _ => none,
    on_cooldown := fun _ => false, last_buy_hours := fun _ => none,
    latest_scores := fun _ => (0, 0),
    list_positions := .ok [⟨"H", 1, 999981/100, 999981/100, 999981/100⟩] }

/-- The C1 candidate signal: an add-on buy of the already-held ticker. -/
def sigsC1s : List Signal := [⟨"H", "Buy", some (1/2), some (1/2)⟩]

/-- **C1 counterexample** (claim as stated is false).  With $0.19 of
remaining budget and a $1000 add-on candidate, the fractional gap-filler rounds
`0.19/1000` *up* to `0.0002` shares, emitting a buy that costs $0.20 — more
than the tracked remaining budget at emission and more than
`effective_budget − cost_basis_at_start + recycled_proceeds` for the whole
cycle. -/
theorem C1_budget_invariant_cex :
    exceptOk (generatePlan cfgC1s envC1s sigsC1s [] 1) = true
    ∧ sumBuyCost (planOutD (generatePlan cfgC1s envC1s sigsC1s [] 1)).decisions
      > effectiveBudget cfgC1s 1 - costBasisOf envC1s []
        + sumSellProceeds
            (planOutD (generatePlan cfgC1s envC1s sigsC1s [] 1)).decisions := by
  norm_num [generatePlan, planOutD, exceptOk, cfgC1s, envC1s, sigsC1s,
    effectiveBudget, updateAtrMult, computeHoldings, costBasisOf,
    buildSignalEntries, validateTicker, cacheLookup, fetchPrice,
    holdingEntries, sortRank, insertDesc, checkPortfolioRisks, evalHolding,
    riskTag, resolvedPrice, holdingATR, holdingSMA20, holdingSMA50,
    stopAfterZL, stopPre, trailingTriggered, fetchHistory, processAll,
    processOne, techFilter, skipDecision, buyDecision, PlanState.log,
    pyInt, pyRound4, roundHalfEven, holdingsLookup, sumBuyCost,
    sumSellProceeds, bind, Except.bind, pure, Except.pure, Except.map,
    String.reduceEq]
  simp
  norm_num

end StockExchange

namespace StockExchange

/-! ## Budget-invariant bookkeeping lemmas -/

theorem sumBuyCost_append (a b : List Decision) :
    sumBuyCost (a ++ b) = sumBuyCost a + sumBuyCost b := by
  simp [sumBuyCost]

theorem sumBuyPrice_append (a b : List Decision) :
    sumBuyPrice (a ++ b) = sumBuyPrice a + sumBuyPrice b := by
  simp [sumBuyPrice]

theorem sumSellProceeds_append (a b : List Decision) :
    sumSellProceeds (a ++ b) = sumSellProceeds a + sumSellProceeds b := by
  simp [sumSellProceeds]

theorem sell_ne_buy : (DAction.SELL = DAction.BUY) = False := by simp

theorem buy_ne_sell : (DAction.BUY = DAction.SELL) = False := by simp

theorem buy_eq_buy : (DAction.BUY = DAction.BUY) = True := by simp

theorem sell_eq_sell : (DAction.SELL = DAction.SELL) = True := by simp

theorem hold_ne_buy : (DAction.HOLD = DAction.BUY) = False := by simp

theorem hold_ne_sell : (DAction.HOLD = DAction.SELL) = False := by simp

theorem skip_ne_buy : (DAction.SKIP = DAction.BUY) = False := by simp

theorem skip_ne_sell : (DAction.SKIP = DAction.SELL) = False := by simp

theorem defense_ne_buy : (DAction.DEFENSE = DAction.BUY) = False := by simp

theorem defense_ne_sell : (DAction.DEFENSE = DAction.SELL) = False := by simp

theorem sumBuyCost_cons (d : Decision) (ds : List Decision) :
    sumBuyCost (d :: ds)
      = (if d.action = .BUY then d.quantity.getD 0 * d.price else 0)
        + sumBuyCost ds := by
  simp [sumBuyCost]

theorem sumBuyPrice_cons (d : Decision) (ds : List Decision) :
    sumBuyPrice (d :: ds)
      = (if d.action = .BUY then d.price else 0) + sumBuyPrice ds := by
  simp [sumBuyPrice]

theorem sumSellProceeds_cons (d : Decision) (ds : List Decision) :
    sumSellProceeds (d :: ds)
      = (if d.action = .SELL then d.quantity.getD 0 * d.price else 0)
        + sumSellProceeds ds := by
  simp [sumSellProceeds]

theorem sumBuyCost_nil : sumBuyCost [] = 0 := rfl

theorem sumBuyPrice_nil : sumBuyPrice [] = 0 := rfl

theorem sumSellProceeds_nil : sumSellProceeds [] = 0 := rfl

theorem fetchPrice_nonneg {env : Env} (henv : EnvPriceNonneg env)
    {t : String} {p : ℚ} (h : fetchPrice env t = some p) : 0 ≤ p := by
  unfold fetchPrice at h
  by_cases ha : env.api_present
  · rw [if_pos ha] at h
    rcases hlt : env.latest_trade t with q | e
    · exact henv.2 t p (by rwa [hlt] at h)
    · rw [hlt] at h
      simp only [Option.some.injEq] at h
      exact h ▸ henv.1 t e hlt
  · rw [if_neg ha] at h
    exact henv.2 t p h

theorem resolvedPrice_cases {env : Env} {t : String} {data : HoldingData}
    {c : ℚ} (h : resolvedPrice env t data = some c) :
    data.current_price = some c ∨ fetchPrice env t = some c := by
  rcases hcp : data.current_price with _ | q <;>
    rcases hf : fetchPrice env t with _ | p <;>
      simp only [resolvedPrice, hcp, hf] at h <;>
      first
        | (split_ifs at h <;> simp_all)
        | simp_all

theorem resolvedPrice_nonneg {env : Env} (henv : EnvPriceNonneg env)
    {t : String} {data : HoldingData}
    (hd : ∀ q, data.current_price = some q → 0 ≤ q)
    {c : ℚ} (h : resolvedPrice env t data = some c) : 0 ≤ c := by
  rcases resolvedPrice_cases h with hc | hc
  · exact hd c hc
  · exact fetchPrice_nonneg henv hc

theorem evalHolding_sums (cfg : Cfg) (env : Env) (panic : Bool) (nid : ℕ)
    (t : String) (data : HoldingData) :
    sumBuyCost (evalHolding cfg env panic nid t data).decisions = 0
    ∧ sumBuyPrice (evalHolding cfg env panic nid t data).decisions = 0
    ∧ sumSellProceeds (evalHolding cfg env panic nid t data).decisions
        = (evalHolding cfg env panic nid t data).proceeds := by
  cases hrt : riskTag cfg env panic t data <;>
    simp [evalHolding, hrt, sumBuyCost, sumBuyPrice, sumSellProceeds, mul_comm]

theorem riskTag_sell_shares_pos {cfg : Cfg} {env : Env} {panic : Bool}
    {t : String} {data : HoldingData} {k : SellKind}
    (h : riskTag cfg env panic t data = .sell k) : 0 < pyInt data.qty := by
  by_contra hq
  rw [not_lt] at hq
  have : riskTag cfg env panic t data = .skipShares := by
    simp [riskTag, hq]
  rw [this] at h
  exact absurd h (by simp)

theorem riskTag_sell_price {cfg : Cfg} {env : Env} {panic : Bool}
    {t : String} {data : HoldingData} {k : SellKind}
    (h : riskTag cfg env panic t data = .sell k) :
    ∃ c, resolvedPrice env t data = some c := by
  rcases hrp : resolvedPrice env t data with _ | c
  · have hq : ¬ pyInt data.qty ≤ 0 := not_le.mpr (riskTag_sell_shares_pos h)
    have : riskTag cfg env panic t data = .skipPrice := by
      simp [riskTag, hq, hrp]
    rw [this] at h
    exact absurd h (by simp)
  · exact ⟨c, rfl⟩

theorem evalHolding_proceeds_nonneg (cfg : Cfg) {env : Env} (panic : Bool)
    (nid : ℕ) (t : String) {data : HoldingData}
    (henv : EnvPriceNonneg env)
    (hd : ∀ q, data.current_price = some q → 0 ≤ q) :
    0 ≤ (evalHolding cfg env panic nid t data).proceeds := by
  cases hrt : riskTag cfg env panic t data <;>
    simp [evalHolding, hrt]
  case sell k =>
    obtain ⟨c, hrp⟩ := riskTag_sell_price hrt
    have hc : 0 ≤ c := resolvedPrice_nonneg henv hd hrp
    have hs : (0 : ℚ) ≤ ((pyInt data.qty : ℤ) : ℚ) := by
      have := riskTag_sell_shares_pos hrt
      exact_mod_cast this.le
    rw [hrp]
    simpa using mul_nonneg hc hs

theorem checkPortfolioRisks_sums (cfg : Cfg) (env : Env) (panic : Bool) :
    ∀ (hs : List (String × HoldingData)) (nid : ℕ),
    sumBuyCost (checkPortfolioRisks cfg env panic nid hs).decisions = 0
    ∧ sumBuyPrice (checkPortfolioRisks cfg env panic nid hs).decisions = 0
    ∧ sumSellProceeds (checkPortfolioRisks cfg env panic nid hs).decisions
        = (checkPortfolioRisks cfg env panic nid hs).proceeds := by
  intro hs
  induction hs with
  | nil => intro nid; simp [checkPortfolioRisks, sumBuyCost, sumBuyPrice,
      sumSellProceeds]
  | cons pair rest ih =>
    intro nid
    obtain ⟨h1, h2, h3⟩ := evalHolding_sums cfg env panic nid pair.1 pair.2
    obtain ⟨i1, i2, i3⟩ := ih (evalHolding cfg env panic nid pair.1 pair.2).nextId
    simp only [checkPortfolioRisks, sumBuyCost_append, sumBuyPrice_append,
      sumSellProceeds_append]
    constructor
    · rw [h1, i1]; ring
    constructor
    · rw [h2, i2]; ring
    · rw [h3, i3]

theorem checkPortfolioRisks_proceeds_nonneg (cfg : Cfg) {env : Env}
    (panic : Bool) (henv : EnvPriceNonneg env) :
    ∀ (hs : List (String × HoldingData)) (nid : ℕ),
    (∀ pair ∈ hs, ∀ q, pair.2.current_price = some q → 0 ≤ q) →
    0 ≤ (checkPortfolioRisks cfg env panic nid hs).proceeds := by
  intro hs
  induction hs with
  | nil => intro nid _; simp [checkPortfolioRisks]
  | cons pair rest ih =>
    intro nid hall
    have h1 := evalHolding_proceeds_nonneg cfg panic nid pair.1 henv
      (hall pair (List.mem_cons_self pair rest))
    have h2 := ih (evalHolding cfg env panic nid pair.1 pair.2).nextId
      (fun x hx => hall x (List.mem_cons_of_mem pair hx))
    simp only [checkPortfolioRisks]
    exact add_nonneg h1 h2

end StockExchange

namespace StockExchange

theorem buildSignalEntries_sums (env : Env) :
    ∀ (sigs : List Signal) (st : BuildState),
    sumBuyCost (buildSignalEntries env st sigs).decisions
        = sumBuyCost st.decisions
    ∧ sumBuyPrice (buildSignalEntries env st sigs).decisions
        = sumBuyPrice st.decisions
    ∧ sumSellProceeds (buildSignalEntries env st sigs).decisions
        = sumSellProceeds st.decisions := by
  intro sigs
  induction sigs with
  | nil => intro st; simp [buildSignalEntries]
  | cons sig rest ih =>
    intro st
    by_cases hb : sig.action = "Buy"
    · rcases hv : validateTicker
        (if env.api_present then some env.get_asset else none) st.cache
        sig.ticker with ⟨ok, cache'⟩
      by_cases hok : ok
      · subst hok
        simp only [buildSignalEntries, hb, if_pos, hv]
        exact ih _
      · have hok' : ok = false := by simpa using hok
        subst hok'
        simp only [buildSignalEntries, hb, if_pos, hv, Bool.false_eq_true,
          if_false]
        obtain ⟨i1, i2, i3⟩ := ih
          { st with
            decisions := st.decisions ++
              [{ id := st.nextId, ticker := sig.ticker, action := .SKIP,
                 quantity := none, price := 0, sma_20 := none, sma_50 := none,
                 atr_14 := none, rsi_14 := .none, high_water_mark := none,
                 reason := .invalidTicker }],
            nextId := st.nextId + 1, cache := cache' }
        rw [i1, i2, i3]
        simp [sumBuyCost_append, sumBuyPrice_append, sumSellProceeds_append,
          sumBuyCost, sumBuyPrice, sumSellProceeds]
    · simp only [buildSignalEntries, hb, if_false]
      exact ih st

theorem buildSignalEntries_prices {env : Env} (henv : EnvPriceNonneg env) :
    ∀ (sigs : List Signal) (st : BuildState),
    (∀ e ∈ st.entries, ∀ p, e.price = some p → 0 ≤ p) →
    ∀ e ∈ (buildSignalEntries env st sigs).entries, ∀ p, e.price = some p →
      0 ≤ p := by
  intro sigs
  induction sigs with
  | nil => intro st hst; simpa [buildSignalEntries] using hst
  | cons sig rest ih =>
    intro st hst
    by_cases hb : sig.action = "Buy"
    · rcases hv : validateTicker
        (if env.api_present then some env.get_asset else none) st.cache
        sig.ticker with ⟨ok, cache'⟩
      by_cases hok : ok
      · subst hok
        simp only [buildSignalEntries, hb, if_pos, hv]
        apply ih
        intro e he p hp
        rcases List.mem_append.mp he with he' | he'
        · exact hst e he' p hp
        · simp only [List.mem_singleton] at he'
          subst he'
          exact fetchPrice_nonneg henv hp
      · have hok' : ok = false := by simpa using hok
        subst hok'
        simp only [buildSignalEntries, hb, if_pos, hv, Bool.false_eq_true,
          if_false]
        apply ih
        exact hst
    · simp only [buildSignalEntries, hb, if_false]
      exact ih st hst

theorem holdingEntries_prices {env : Env} (henv : EnvPriceNonneg env)
    (hs : List (String × HoldingData)) :
    ∀ e ∈ holdingEntries env hs, ∀ p, e.price = some p → 0 ≤ p := by
  intro e he p hp
  unfold holdingEntries at he
  obtain ⟨pair, _, hpe⟩ := List.mem_map.mp he
  obtain ⟨t, data⟩ := pair
  dsimp only at hpe
  have hpr : e.price = fetchPrice env t := by rw [← hpe]
  rw [hpr] at hp
  exact fetchPrice_nonneg henv hp

theorem insertDesc_mem {x y : RankEntry} {l : List RankEntry}
    (h : x ∈ insertDesc y l) : x = y ∨ x ∈ l := by
  induction l with
  | nil => simpa [insertDesc] using h
  | cons z zs ih =>
    unfold insertDesc at h
    split_ifs at h
    · exact List.mem_cons.mp h
    · rcases List.mem_cons.mp h with h' | h'
      · right; exact List.mem_cons.mpr (Or.inl h')
      · rcases ih h' with h'' | h''
        · left; exact h''
        · right; exact List.mem_cons.mpr (Or.inr h'')

theorem sortRank_mem {x : RankEntry} {l : List RankEntry}
    (h : x ∈ sortRank l) : x ∈ l := by
  induction l with
  | nil => simp [sortRank] at h
  | cons z zs ih =>
    unfold sortRank at h
    simp only [List.foldr_cons] at h
    rcases insertDesc_mem h with h' | h'
    · exact h' ▸ List.mem_cons_self z zs
    · exact List.mem_cons_of_mem z (ih (by simpa [sortRank] using h'))

/-- The running budget invariant of one planning cycle, relative to the
budget `r0` available when the buy loop starts: (a) spending is covered by
`r0`, sell proceeds, and the 4-decimal rounding slack of fractional buys;
(b) the tracked budget never falls below `min r0 0` by more than that slack;
(c) the slack itself is nonnegative. -/
def PlanInv (r0 : ℚ) (st : PlanState) : Prop :=
  st.remaining + sumBuyCost st.decisions
      ≤ r0 + sumSellProceeds st.decisions
        + (1/20000) * sumBuyPrice st.decisions
  ∧ min r0 0 - (1/20000) * sumBuyPrice st.decisions ≤ st.remaining
  ∧ 0 ≤ sumBuyPrice st.decisions

end StockExchange

namespace StockExchange

theorem swapScan_inv (t : String) (p new_rank r0 : ℚ) (hp : 0 < p) :
    ∀ (l : List RankEntry) (st st' : PlanState),
    (∀ e ∈ l, ∀ q, e.price = some q → 0 ≤ q) →
    swapScan t p new_rank st l = .ok st' →
    PlanInv r0 st → PlanInv r0 st' := by
  intro l
  induction l with
  | nil =>
    intro st st' _ h hinv
    simp only [swapScan, Except.ok.injEq] at h
    exact h ▸ hinv
  | cons e rest ih =>
    intro st st' hl h hinv
    have hrest : ∀ x ∈ rest, ∀ q, x.price = some q → 0 ≤ q :=
      fun x hx => hl x (List.mem_cons_of_mem e hx)
    simp only [swapScan] at h
    split_ifs at h with hcond hthr hsq
    · exact ih st st' hrest h hinv
    · rcases hep : e.price with _ | q
      · rw [hep] at h
        simp [pyMulOpt, bind, Except.bind] at h
      · rw [hep] at h
        simp only [pyMulOpt, bind, Except.bind, Option.getD_some, pure,
          Except.pure, Except.ok.injEq] at h
        subst h
        have hsq' : (0 : ℤ) < ⌊e.qty * (1/2)⌋ := not_le.mp hsq
        have hq0 : 0 ≤ q := hl e (List.mem_cons_self e rest) q hep
        have hqc : (0 : ℚ) ≤ ((⌊e.qty * (1/2)⌋ : ℤ) : ℚ) := by
          exact_mod_cast hsq'.le
        have hproc : (0 : ℚ) ≤ ((⌊e.qty * (1/2)⌋ : ℤ) : ℚ) * q :=
          mul_nonneg hqc hq0
        have hrs : ((⌊e.qty * (1/2)⌋ : ℤ) : ℚ) * q / p * p
            = ((⌊e.qty * (1/2)⌋ : ℤ) : ℚ) * q :=
          div_mul_cancel₀ _ (ne_of_gt hp)
        have hbound : (swapSizing (((⌊e.qty * (1/2)⌋ : ℤ) : ℚ) * q / p)).1 * p
            ≤ ((⌊e.qty * (1/2)⌋ : ℤ) : ℚ) * q + (1/20000) * p := by
          unfold swapSizing
          split_ifs with ha hb
          · have h1 : ((⌊((⌊e.qty * (1/2)⌋ : ℤ) : ℚ) * q / p⌋ : ℤ) : ℚ)
                ≤ ((⌊e.qty * (1/2)⌋ : ℤ) : ℚ) * q / p := Int.floor_le _
            have h2 := mul_le_mul_of_nonneg_right h1 hp.le
            rw [hrs] at h2
            simp only []
            nlinarith [hp.le]
          · have h1 := pyRound4_le (((⌊e.qty * (1/2)⌋ : ℤ) : ℚ) * q / p)
            have h2 := mul_le_mul_of_nonneg_right h1 hp.le
            rw [add_mul, hrs] at h2
            simp only []
            nlinarith [hp.le]
          · simp only []
            nlinarith [hproc, hp.le]
        have hmin : min r0 0 ≤ 0 := min_le_right r0 0
        obtain ⟨hA, hB, hC⟩ := hinv
        unfold PlanInv
        split_ifs with h1 h2 h3
        all_goals
          simp only [sumBuyCost_append, sumBuyPrice_append,
            sumSellProceeds_append, sumBuyCost_cons, sumBuyPrice_cons,
            sumSellProceeds_cons, sumBuyCost_nil, sumBuyPrice_nil,
            sumSellProceeds_nil, buyDecision, sell_ne_buy, buy_ne_sell,
            buy_eq_buy, sell_eq_sell, if_false, if_true, Option.getD_some,
            add_zero, zero_add]
        all_goals
          refine ⟨by linarith [hbound, hproc, hp.le, hmin],
            by linarith [hbound, hproc, hp.le, hmin],
            by linarith [hbound, hproc, hp.le, hmin]⟩
    · exact ih st st' hrest h hinv
    · exact ih st st' hrest h hinv
end StockExchange

namespace StockExchange

theorem wholeCap_cost_le {p : ℚ} (hp : 0 < p) (s1 : ℤ) (rem : ℚ) :
    (wholeCap s1 p rem).2 ≤ rem := by
  unfold wholeCap
  split_ifs with h
  · have h1 : ((⌊rem / p⌋ : ℤ) : ℚ) ≤ rem / p := Int.floor_le _
    have h2 := mul_le_mul_of_nonneg_right h1 hp.le
    rwa [div_mul_cancel₀ _ (ne_of_gt hp)] at h2
  · exact le_of_not_lt h

theorem wholeCap_cost_eq (s1 : ℤ) (p rem : ℚ) :
    (((wholeCap s1 p rem).1 : ℤ) : ℚ) * p = (wholeCap s1 p rem).2 := by
  unfold wholeCap
  split_ifs <;> simp

theorem PlanInv_log_skip (r0 : ℚ) (st : PlanState) (t : String) (p : ℚ)
    (rk : ReasonKind) (rsi : PyFloatOpt) (s20 s50 : Option ℚ)
    (hinv : PlanInv r0 st) :
    PlanInv r0 (st.log (skipDecision t p rk rsi s20 s50)) := by
  unfold PlanInv PlanState.log at *
  simpa only [sumBuyCost_append, sumBuyPrice_append, sumSellProceeds_append,
    sumBuyCost_cons, sumBuyPrice_cons, sumSellProceeds_cons, sumBuyCost_nil,
    sumBuyPrice_nil, sumSellProceeds_nil, skipDecision, skip_ne_buy,
    skip_ne_sell, if_false, add_zero] using hinv

theorem processOne_inv (cfg : Cfg) (env : Env) (rankList : List RankEntry)
    (holdings : List (String × HoldingData)) (r0 : ℚ)
    (st st' : PlanState) (item : RankEntry)
    (hip : ∀ q, item.price = some q → 0 ≤ q)
    (hrl : ∀ e ∈ rankList, ∀ q, e.price = some q → 0 ≤ q)
    (h : processOne cfg env rankList holdings st item = .ok st')
    (hinv : PlanInv r0 st) : PlanInv r0 st' := by
  have hrev : ∀ e ∈ rankList.reverse, ∀ q, e.price = some q → 0 ≤ q :=
    fun e he => hrl e (List.mem_reverse.mp he)
  cases hit : item.rtype with
  | holding =>
    simp only [processOne, hit, Except.ok.injEq] at h
    exact h ▸ hinv
  | newSignal =>
    simp only [processOne, hit] at h
    rcases hipr : item.price with _ | p
    · simp only [hipr, Except.ok.injEq] at h
      exact h ▸ hinv
    · simp only [hipr] at h
      have hp0 : 0 ≤ p := hip p hipr
      by_cases hpz : p = 0
      · rw [if_pos hpz] at h
        simp only [Except.ok.injEq] at h
        exact h ▸ hinv
      · have hp : 0 < p := lt_of_le_of_ne hp0 (Ne.symm hpz)
        rw [if_neg hpz] at h
        by_cases hcd : env.on_cooldown item.ticker
        · rw [if_pos hcd] at h
          simp only [Except.ok.injEq] at h
          exact h ▸ PlanInv_log_skip r0 st _ _ _ _ _ _ hinv
        · rw [if_neg hcd] at h
          by_cases hcc : pyInt (((holdingsLookup item.ticker holdings).map
              (·.qty)).getD 0)
              ≥ ⌊cfg.budget * cfg.max_concentration_percent / p⌋
          · rw [if_pos hcc] at h
            simp only [Except.ok.injEq] at h
            exact h ▸ PlanInv_log_skip r0 st _ _ _ _ _ _ hinv
          · rw [if_neg hcc] at h
            rcases htf : techFilter env item.ticker p item.rank_score
              with e | tf
            · rw [htf] at h
              simp [bind, Except.bind] at h
            · rw [htf] at h
              simp only [bind, Except.bind] at h
              rcases hsk : tf.skip with _ | r
              · simp only [hsk] at h
                set s1 : ℤ :=
                  (if ⌊cfg.budget * cfg.risk_per_trade_percent / p⌋ = 0 then
                    if ⌊cfg.budget * cfg.max_concentration_percent / p⌋ ≥ 1
                    then 1
                    else ⌊cfg.budget * cfg.risk_per_trade_percent / p⌋
                  else ⌊cfg.budget * cfg.risk_per_trade_percent / p⌋)
                  with hs1def
                split_ifs at h with hwhole hpos hcap hfrac hfq
                · -- whole-share buy
                  simp only [Except.ok.injEq] at h
                  subst h
                  have hcost := wholeCap_cost_le hp s1 st.remaining
                  have hceq := wholeCap_cost_eq s1 p st.remaining
                  have hmin : min r0 0 ≤ 0 := min_le_right r0 0
                  obtain ⟨hA, hB, hC⟩ := hinv
                  unfold PlanInv
                  refine ⟨?_, ?_, ?_⟩ <;>
                    simp only [sumBuyCost_append, sumBuyPrice_append,
                      sumSellProceeds_append, sumBuyCost_cons,
                      sumBuyPrice_cons, sumSellProceeds_cons, sumBuyCost_nil,
                      sumBuyPrice_nil, sumSellProceeds_nil, buyDecision,
                      buy_eq_buy, buy_ne_sell, if_false, if_true,
                      Option.getD_some, add_zero, zero_add] <;>
                    linarith [hcost, hceq, hp.le, hmin]
                · exact swapScan_inv item.ticker p item.rank_score r0 hp
                    rankList.reverse st st' hrev h hinv
                · exact swapScan_inv item.ticker p item.rank_score r0 hp
                    rankList.reverse st st' hrev h hinv
                · -- fractional gap-fill buy
                  simp only [Except.ok.injEq] at h
                  subst h
                  have hr1 : pyRound4 (st.remaining / p)
                      ≤ st.remaining / p + 1/20000 := pyRound4_le _
                  have hr2 : pyRound4 (st.remaining / p) * p
                      ≤ st.remaining + (1/20000) * p := by
                    have h2 := mul_le_mul_of_nonneg_right hr1 hp.le
                    rw [add_mul, div_mul_cancel₀ _ (ne_of_gt hp)] at h2
                    linarith
                  have hmin : min r0 0 ≤ 0 := min_le_right r0 0
                  obtain ⟨hA, hB, hC⟩ := hinv
                  unfold PlanInv
                  refine ⟨?_, ?_, ?_⟩ <;>
                    simp only [sumBuyCost_append, sumBuyPrice_append,
                      sumSellProceeds_append, sumBuyCost_cons,
                      sumBuyPrice_cons, sumSellProceeds_cons, sumBuyCost_nil,
                      sumBuyPrice_nil, sumSellProceeds_nil, buyDecision,
                      buy_eq_buy, buy_ne_sell, if_false, if_true,
                      Option.getD_some, add_zero, zero_add] <;>
                    linarith [hr2, hp.le, hmin]
                · exact swapScan_inv item.ticker p item.rank_score r0 hp
                    rankList.reverse st st' hrev h hinv
                · exact swapScan_inv item.ticker p item.rank_score r0 hp
                    rankList.reverse st st' hrev h hinv
              · simp only [hsk, Except.ok.injEq] at h
                exact h ▸ PlanInv_log_skip r0 st _ _ _ _ _ _ hinv

end StockExchange

namespace StockExchange

theorem processAll_inv (cfg : Cfg) (env : Env) (rankList : List RankEntry)
    (holdings : List (String × HoldingData)) (r0 : ℚ)
    (hrl : ∀ e ∈ rankList, ∀ q, e.price = some q → 0 ≤ q) :
    ∀ (l : List RankEntry) (st st' : PlanState),
    (∀ e ∈ l, ∀ q, e.price = some q → 0 ≤ q) →
    processAll cfg env rankList holdings st l = .ok st' →
    PlanInv r0 st → PlanInv r0 st' := by
  intro l
  induction l with
  | nil =>
    intro st st' _ h hinv
    simp only [processAll, Except.ok.injEq] at h
    exact h ▸ hinv
  | cons item rest ih =>
    intro st st' hl h hinv
    simp only [processAll, bind, Except.bind] at h
    rcases hpo : processOne cfg env rankList holdings st item with e | st1
    · rw [hpo] at h
      simp at h
    · rw [hpo] at h
      exact ih st1 st' (fun e he => hl e (List.mem_cons_of_mem item he)) h
        (processOne_inv cfg env rankList holdings r0 st st1 item
          (hl item (List.mem_cons_self item rest)) hrl hpo hinv)

theorem computeHoldings_prices {env : Env} (henv : EnvNonneg env)
    (portfolio : List PortfolioPos) :
    ∀ pair ∈ (computeHoldings env portfolio).2, ∀ q,
      pair.2.current_price = some q → 0 ≤ q := by
  intro pair hmem q hq
  unfold computeHoldings at hmem
  by_cases ha : env.api_present
  · rw [if_pos ha] at hmem
    rcases hlp : env.list_positions with e | ps
    · rw [hlp] at hmem
      simp only at hmem
      obtain ⟨pp, _, hpe⟩ := List.mem_map.mp hmem
      have : pair.2.current_price = none := by rw [← hpe]
      rw [this] at hq
      exact absurd hq (by simp)
    · rw [hlp] at hmem
      simp only at hmem
      obtain ⟨pos, hpos, hpe⟩ := List.mem_map.mp hmem
      have : pair.2.current_price = some pos.current_price := by
        rw [← hpe]
      rw [this] at hq
      simp only [Option.some.injEq] at hq
      exact hq ▸ henv.2 ps hlp pos hpos
  · rw [if_neg ha] at hmem
    simp at hmem

theorem planLoopBound (cfg' : Cfg) (env : Env) (build : BuildState)
    (hd : List (String × HoldingData)) (r0 am : ℚ) (panic : Bool)
    (out : PlanOut)
    (henv : EnvPriceNonneg env)
    (hbc : sumBuyCost build.decisions = 0)
    (hbp : sumBuyPrice build.decisions = 0)
    (hbs : sumSellProceeds build.decisions = 0)
    (hbe : ∀ e ∈ build.entries, ∀ p, e.price = some p → 0 ≤ p)
    (hhold : ∀ pair ∈ hd, ∀ q, pair.2.current_price = some q → 0 ≤ q)
    (h : Except.map (fun st => ({
          orders := st.orders,
          decisions := st.decisions,
          remaining := st.remaining,
          atr_multiplier := am,
          nextId := st.nextId } : PlanOut))
        (processAll cfg' env
          (sortRank (build.entries ++ holdingEntries env hd)) hd
          {
            orders := (checkPortfolioRisks cfg' env panic build.nextId
              hd).orders,
            decisions := build.decisions ++ (checkPortfolioRisks cfg' env
              panic build.nextId hd).decisions,
            nextId := (checkPortfolioRisks cfg' env panic build.nextId
              hd).nextId,
            remaining := if (checkPortfolioRisks cfg' env panic build.nextId
                hd).proceeds > 0 then
              r0 + (checkPortfolioRisks cfg' env panic build.nextId
                hd).proceeds
              else r0,
            sold := (checkPortfolioRisks cfg' env panic build.nextId
              hd).orders.map (·.ticker) }
          (sortRank (build.entries ++ holdingEntries env hd))) = .ok out) :
    sumBuyCost out.decisions
      ≤ max r0 0 + sumSellProceeds out.decisions
        + (1/10000) * sumBuyPrice out.decisions := by
  obtain ⟨stf, hpa, hout⟩ := exceptMap_ok _ _ _ h
  obtain ⟨hr1, hr2, hr3⟩ := checkPortfolioRisks_sums cfg' env panic hd
    build.nextId
  have hrp := checkPortfolioRisks_proceeds_nonneg cfg' panic henv hd
    build.nextId hhold
  have hL : ∀ e ∈ sortRank (build.entries ++ holdingEntries env hd), ∀ q,
      e.price = some q → 0 ≤ q := by
    intro e he q hq
    rcases List.mem_append.mp (sortRank_mem he) with h' | h'
    · exact hbe e h' q hq
    · exact holdingEntries_prices henv hd e h' q hq
  have hinv0 : PlanInv r0
      { orders := (checkPortfolioRisks cfg' env panic build.nextId hd).orders,
        decisions := build.decisions ++ (checkPortfolioRisks cfg' env panic
          build.nextId hd).decisions,
        nextId := (checkPortfolioRisks cfg' env panic build.nextId hd).nextId,
        remaining := if (checkPortfolioRisks cfg' env panic build.nextId
            hd).proceeds > 0 then
          r0 + (checkPortfolioRisks cfg' env panic build.nextId hd).proceeds
          else r0,
        sold := (checkPortfolioRisks cfg' env panic build.nextId
          hd).orders.map (·.ticker) } := by
    have hmin : min r0 0 ≤ r0 := min_le_left r0 0
    unfold PlanInv
    simp only [sumBuyCost_append, sumBuyPrice_append, sumSellProceeds_append,
      hbc, hbp, hbs, hr1, hr2, hr3]
    split_ifs with hpos <;>
      refine ⟨by linarith, by linarith, by linarith⟩
  have hfin := processAll_inv cfg' env
    (sortRank (build.entries ++ holdingEntries env hd)) hd r0 hL
    (sortRank (build.entries ++ holdingEntries env hd)) _ stf hL hpa hinv0
  obtain ⟨hA, hB, hC⟩ := hfin
  have hmax : r0 - min r0 0 = max r0 0 := by
    rcases le_total r0 0 with hh | hh
    · rw [min_eq_left hh, max_eq_right hh]; ring
    · rw [min_eq_right hh, max_eq_left hh]; ring
  have hdec : out.decisions = stf.decisions := by rw [hout]
  rw [hdec]
  linarith [hA, hB, hC]

end StockExchange

namespace StockExchange

theorem planBuild_sums (env : Env) (signals : List Signal) (c : Prop)
    [Decidable c] :
    sumBuyCost (if c then (⟨[], [defenseDecision], 1, []⟩ : BuildState)
      else buildSignalEntries env ⟨[], [], 0, []⟩ signals).decisions = 0
    ∧ sumBuyPrice (if c then (⟨[], [defenseDecision], 1, []⟩ : BuildState)
      else buildSignalEntries env ⟨[], [], 0, []⟩ signals).decisions = 0
    ∧ sumSellProceeds (if c then (⟨[], [defenseDecision], 1, []⟩ : BuildState)
      else buildSignalEntries env ⟨[], [], 0, []⟩ signals).decisions = 0 := by
  split_ifs with hc
  · simp [sumBuyCost, sumBuyPrice, sumSellProceeds, defenseDecision,
      defense_ne_buy, defense_ne_sell]
  · obtain ⟨h1, h2, h3⟩ := buildSignalEntries_sums env signals ⟨[], [], 0, []⟩
    refine ⟨?_, ?_, ?_⟩
    · rw [h1]; simp [sumBuyCost]
    · rw [h2]; simp [sumBuyPrice]
    · rw [h3]; simp [sumSellProceeds]

theorem planBuild_prices {env : Env} (henv : EnvPriceNonneg env)
    (signals : List Signal) (c : Prop) [Decidable c] :
    ∀ e ∈ (if c then (⟨[], [defenseDecision], 1, []⟩ : BuildState)
      else buildSignalEntries env ⟨[], [], 0, []⟩ signals).entries,
      ∀ p, e.price = some p → 0 ≤ p := by
  split_ifs with hc
  · intro e he; simp at he
  · exact buildSignalEntries_prices henv signals ⟨[], [], 0, []⟩ (by simp)

end StockExchange

namespace StockExchange

/-- **C1** (corrected).  The claim "the combined cost of all planned buys
never exceeds the session budget plus recycled sell proceeds" fails on the
4-decimal rounding of the fractional gap-filler (see
`C1_budget_invariant_cex`); the provable bound carries an extra
`price / 10000` slack per planned buy: for every successful plan, the total
buy cost is at most the positive part of the free budget (effective budget
minus committed cost basis) plus all planned sell proceeds plus `1/10000`
of the summed buy prices. -/
theorem C1_budget_invariant_amended (cfg : Cfg) (env : Env)
    (signals : List Signal) (portfolio : List PortfolioPos) (env_bias : ℚ)
    (out : PlanOut) (henv : EnvNonneg env)
    (h : generatePlan cfg env signals portfolio env_bias = .ok out) :
    sumBuyCost out.decisions
      ≤ max (effectiveBudget cfg env_bias - costBasisOf env portfolio) 0
        + sumSellProceeds out.decisions
        + (1/10000) * sumBuyPrice out.decisions := by
  unfold generatePlan at h
  rcases hch : computeHoldings env portfolio with ⟨cb, hd⟩
  simp only [hch] at h
  have hcb : costBasisOf env portfolio = cb := by
    rw [costBasisOf, hch]
  have hhold : ∀ pair ∈ hd, ∀ q, pair.2.current_price = some q → 0 ≤ q := by
    have hcp := computeHoldings_prices henv portfolio
    rw [hch] at hcp
    exact hcp
  obtain ⟨hbc, hbp, hbs⟩ := planBuild_sums env signals
    (env_bias < 1/2 ∨ env_bias = 0)
  rw [hcb]
  exact planLoopBound _ env _ hd _ _ _ out henv.1 hbc hbp hbs
    (planBuild_prices henv.1 signals (env_bias < 1/2 ∨ env_bias = 0)) hhold h

end StockExchange

namespace StockExchange

/-- Minimal configuration for exercising the amended budget bound. -/
def cfgC1w : Cfg :=
  { budget := 100, risk_per_trade_percent := 1/100,
    stop_loss_percent := 5/100, max_concentration_percent := 1/4 }

/-- Environment with no API client and every collaborator failing: the
price-nonnegativity side conditions hold vacuously. -/
def envC1w : Env :=
  { api_present := false, get_asset := fun _ => .error (),
    latest_trade := fun _ => .error (),
    manual_price := fun _ => none,
    history := fun _ => none, on_cooldown := fun _ => false,
    last_buy_hours := fun _ => none, latest_scores := fun _ => (0, 0),
    list_positions := .error () }

/-- The plan the engine produces from an empty signal list and empty
portfolio at full bias: no orders, no decisions, the whole budget left. -/
def outC1w : PlanOut :=
  { orders := [], decisions := [], remaining := 100, atr_multiplier := 2,
    nextId := 0 }

theorem C1_budget_invariant_amended_witness :
    sumBuyCost outC1w.decisions
      ≤ max (effectiveBudget cfgC1w 1 - costBasisOf envC1w []) 0
        + sumSellProceeds outC1w.decisions
        + (1/10000) * sumBuyPrice outC1w.decisions :=
  C1_budget_invariant_amended cfgC1w envC1w [] [] 1 outC1w
    (by
      refine ⟨⟨?_, ?_⟩, ?_⟩
      · intro t p hp; simp [envC1w] at hp
      · intro t p hp; simp [envC1w] at hp
      · intro ps hps; simp [envC1w] at hps)
    (by
      norm_num [generatePlan, cfgC1w, envC1w, outC1w, effectiveBudget,
        updateAtrMult, computeHoldings, buildSignalEntries, holdingEntries,
        sortRank, checkPortfolioRisks, processAll, bind, Except.bind, pure,
        Except.pure, Except.map])

end StockExchange
